import Mathlib

/-!
Student-records page script (`portal/static/portal/script.js`)

A shallow embedding of the five functions of `script.js` together with the
parts of the JavaScript runtime they call (`String.prototype.split`,
`Array.prototype.find`, `String.prototype.startsWith`, `parseInt`,
`JSON.stringify`, the promise chain of `fetch`), followed by theorems about
them.

JavaScript strings are modelled as lists of characters.  Every separator and
literal the script uses is ASCII, so splitting and comparing by code point
agrees with splitting and comparing by UTF-16 code unit.
-/

namespace Script

/-- A JavaScript string. -/
abbrev Str := List Char

/-! ## Strings -/

/-- The method `s.startsWith(pre)`. -/
def startsWith (s pre : Str) : Bool := pre.isPrefixOf s

/-- The scanning loop of `String.prototype.split` for a non-empty separator:
`skip` counts the characters of a separator just matched that are still to be
passed over, `cur` holds the current piece, last character first. -/
def splitGo (sep : Str) : Nat → Str → Str → List Str
  | _, cur, [] => [cur.reverse]
  | skip + 1, cur, _ :: rest => splitGo sep skip cur rest
  | 0, cur, c :: rest =>
    if sep.isPrefixOf (c :: rest) then cur.reverse :: splitGo sep (sep.length - 1) [] rest
    else splitGo sep 0 (c :: cur) rest

/-- The method `s.split(sep)`: the pieces of `s` between the occurrences of
`sep`, found from left to right without overlap.  The empty string gives one empty piece;
the empty separator gives the characters one by one. -/
def split (s sep : Str) : List Str :=
  if sep = [] then s.map (fun c => [c]) else splitGo sep 0 [] s

/-- The method `pieces.join(sep)`. -/
def join (pieces : List Str) (sep : Str) : Str := List.intercalate sep pieces

/-- Whether `sep` occurs somewhere in `s`. -/
def occursIn (sep : Str) : Str → Bool
  | [] => sep.isPrefixOf []
  | c :: rest => sep.isPrefixOf (c :: rest) || occursIn sep rest

/-! ## Numbers -/

/-- The numbers `parseInt` can return: `NaN`, the infinities, and the
integer-valued doubles (`fin true 0` is `-0`). -/
inductive JSNumber
  | nan
  | inf (neg : Bool)
  | fin (neg : Bool) (mag : Nat)
  deriving DecidableEq, Repr

/-- The values the script puts into a request: strings, numbers and
`undefined`. -/
inductive JSValue
  | undefined
  | str (s : Str)
  | num (n : JSNumber)
  deriving DecidableEq, Repr

/-- The double nearest to the natural number `n` (ties to the even
significand), `none` when that is beyond the largest double.  Every double of
magnitude `2^53` or more is an integer, so the result is again a natural
number. -/
def roundToDouble (n : Nat) : Option Nat :=
  if n < 2 ^ 53 then some n
  else
    let e := Nat.log2 n - 52
    let q := n / 2 ^ e
    let r := n % 2 ^ e
    let q1 := if 2 ^ e < 2 * r ∨ (2 * r = 2 ^ e ∧ q % 2 = 1) then q + 1 else q
    if q1 * 2 ^ e < 2 ^ 1024 then some (q1 * 2 ^ e) else none

/-- The Number value of `sign × mathInt`, the last two steps of `parseInt`. -/
def JSNumber.ofSignMag (neg : Bool) (mathInt : Nat) : JSNumber :=
  if mathInt = 0 then JSNumber.fin neg 0
  else
    match roundToDouble mathInt with
    | some m => JSNumber.fin neg m
    | none => JSNumber.inf neg

/-- The Number value of an integer that a double holds exactly. -/
def JSNumber.ofInt (z : Int) : JSNumber := JSNumber.fin (decide (z < 0)) z.natAbs

/-- White space and line terminators, as `parseInt` strips them from the
start of its argument. -/
def isWhiteSpace (c : Char) : Bool :=
  let n := c.toNat
  n = 0x09 || n = 0x0A || n = 0x0B || n = 0x0C || n = 0x0D || n = 0x20 || n = 0xA0
    || n = 0x1680 || (0x2000 ≤ n && n ≤ 0x200A) || n = 0x2028 || n = 0x2029
    || n = 0x202F || n = 0x205F || n = 0x3000 || n = 0xFEFF

/-- The value of a character as a digit: `0`-`9`, then the letters of either
case for ten to thirty-five. -/
def digitValue (c : Char) : Option Nat :=
  let n := c.toNat
  if 48 ≤ n ∧ n ≤ 57 then some (n - 48)
  else if 97 ≤ n ∧ n ≤ 122 then some (n - 87)
  else if 65 ≤ n ∧ n ≤ 90 then some (n - 55)
  else none

/-- Whether `c` is a digit of radix `radix`. -/
def isRadixDigit (radix : Nat) (c : Char) : Bool :=
  match digitValue c with
  | some d => decide (d < radix)
  | none => false

/-- The sign step of `parseInt`: whether the text starts with `-`, and the
text without a leading `+` or `-`. -/
def stripSign : Str → Bool × Str
  | [] => (false, [])
  | c :: rest =>
    if c = '-' then (true, rest)
    else if c = '+' then (false, rest)
    else (false, c :: rest)

/-- The radix step of `parseInt` called without a radix: sixteen after a
leading `0x` or `0X`, which is removed, and ten otherwise. -/
def stripRadix : Str → Nat × Str
  | c :: d :: rest =>
    if c = '0' ∧ (d = 'x' ∨ d = 'X') then (16, rest) else (10, c :: d :: rest)
  | s => (10, s)

/-- The integer written by the digits `z` in radix `radix`. -/
def radixValue (radix : Nat) (z : Str) : Nat :=
  z.foldl (fun acc c => acc * radix + (digitValue c).getD 0) 0

/-- The function `parseInt(string)`, called with one argument.  The value of the digits is
taken exactly before it is rounded to a double (an engine is allowed to zero
decimal digits after the twentieth). -/
def parseInt (string : Str) : JSNumber :=
  let trimmed := string.dropWhile isWhiteSpace
  let (neg, unsigned) := stripSign trimmed
  let (radix, digits) := stripRadix unsigned
  let z := digits.takeWhile (isRadixDigit radix)
  if z = [] then JSNumber.nan else JSNumber.ofSignMag neg (radixValue radix z)

/-! ## `JSON.stringify` -/

/-- Decimal digits of a natural number. -/
def decimal (n : Nat) : Str := Nat.toDigits 10 n

/-- For the integer-valued double `x` and a number of significant digits `k`,
the decimal with `k` significant digits that is nearest to `x` and rounds to
`x`, if there is one. -/
def shortestAt (x k : Nat) : Option Nat :=
  let p := 10 ^ ((decimal x).length - k)
  let lo := x / p * p
  let hi := lo + p
  let okLo := decide (roundToDouble lo = some x)
  let okHi := decide (roundToDouble hi = some x)
  if okLo && okHi then
    if x - lo < hi - x then some lo
    else if hi - x < x - lo then some hi
    else if (lo / p) % 2 = 0 then some lo else some hi
  else if okLo then some lo
  else if okHi then some hi
  else none

/-- The decimal with the fewest significant digits that rounds to the
integer-valued double `x`, with that number of digits. -/
def shortest (x : Nat) : Nat × Nat :=
  let ks := (List.range (decimal x).length).map (fun i => i + 1)
  match ks.findSome? (fun k => (shortestAt x k).map (fun v => (v, k))) with
  | some vk => vk
  | none => (x, (decimal x).length)

/-- The operation `Number::toString` of a positive integer-valued double: plain digits up
to twenty-one of them, exponent form beyond. -/
def magToString (x : Nat) : Str :=
  let (v, k) := shortest x
  let ds := decimal v
  if ds.length ≤ 21 then ds
  else
    let mantissa := if k = 1 then ds.take 1 else ds.take 1 ++ '.' :: (ds.take k).drop 1
    mantissa ++ 'e' :: '+' :: decimal (ds.length - 1)

/-- The operation `Number::toString` of a finite number of sign `neg` and magnitude `mag`. -/
def finToString (neg : Bool) (mag : Nat) : Str :=
  if mag = 0 then ['0']
  else if neg then '-' :: magToString mag
  else magToString mag

/-- Four lower-case hexadecimal digits of `n`. -/
def hex4 (n : Nat) : Str :=
  [Nat.digitChar (n / 4096 % 16), Nat.digitChar (n / 256 % 16),
   Nat.digitChar (n / 16 % 16), Nat.digitChar (n % 16)]

/-- The escape of one character inside a JSON string literal. -/
def quoteChar (c : Char) : Str :=
  let n := c.toNat
  if n = 0x22 then [Char.ofNat 92, Char.ofNat 34]
  else if n = 0x5C then [Char.ofNat 92, Char.ofNat 92]
  else if n = 0x08 then [Char.ofNat 92, 'b']
  else if n = 0x09 then [Char.ofNat 92, 't']
  else if n = 0x0A then [Char.ofNat 92, 'n']
  else if n = 0x0C then [Char.ofNat 92, 'f']
  else if n = 0x0D then [Char.ofNat 92, 'r']
  else if n < 0x20 then Char.ofNat 92 :: 'u' :: hex4 n
  else [c]

/-- The operation `QuoteJSONString`: a string as a JSON string literal. -/
def quoteJSONString (s : Str) : Str :=
  Char.ofNat 34 :: (s.flatMap quoteChar ++ [Char.ofNat 34])

/-- What `JSON.stringify` makes of one property value. -/
inductive JSONMember
  | omitted
  | null
  | number (text : Str)
  | string (text : Str)
  deriving DecidableEq, Repr

/-- The operation `SerializeJSONProperty` on the values of this script: a property whose
value is `undefined` is left out, a number that is not finite becomes `null`. -/
def serializeJSONProperty : JSValue → JSONMember
  | JSValue.undefined => JSONMember.omitted
  | JSValue.str s => JSONMember.string (quoteJSONString s)
  | JSValue.num (JSNumber.fin neg mag) => JSONMember.number (finToString neg mag)
  | JSValue.num _ => JSONMember.null

/-- The text of a member's value, `none` when the member is left out. -/
def JSONMember.text : JSONMember → Option Str
  | JSONMember.omitted => none
  | JSONMember.null => some "null".toList
  | JSONMember.number t => some t
  | JSONMember.string t => some t

/-- An object literal: its properties in the order they are written. -/
abbrev JSObject := List (Str × JSValue)

/-- The value of property `key` of an object literal. -/
def JSObject.get (o : JSObject) (key : Str) : JSValue :=
  match o.find? (fun kv => kv.1 = key) with
  | some kv => kv.2
  | none => JSValue.undefined

/-- One `"key":value` member of the output, if the property is kept. -/
def serializeMember (kv : Str × JSValue) : Option Str :=
  (serializeJSONProperty kv.2).text.map (fun t => quoteJSONString kv.1 ++ ':' :: t)

/-- The function `JSON.stringify(o)` for an object literal `o`. -/
def JSON_stringify (o : JSObject) : Str :=
  Char.ofNat 123 :: (List.intercalate [','] (o.filterMap serializeMember) ++ [Char.ofNat 125])

/-! ## `getCSRFToken` -/

/-- The function `getCSRFToken()` (script.js lines 1-4), as a function of `document.cookie`. -/
def getCSRFToken (documentCookie : Str) : JSValue :=
  match (split documentCookie "; ".toList).find? (fun row => startsWith row "csrftoken=".toList) with
  | some cookie =>
    if cookie ≠ [] then
      match (split cookie "=".toList).get? 1 with
      | some token => JSValue.str token
      | none => JSValue.undefined
    else JSValue.str []
  | none => JSValue.str []

/-- The conversion `ToString` of a number. -/
def JSNumber.toStr : JSNumber → Str
  | JSNumber.nan => "NaN".toList
  | JSNumber.inf neg => if neg then "-Infinity".toList else "Infinity".toList
  | JSNumber.fin neg mag => finToString neg mag

/-- The conversion `ToString` of a value. -/
def JSValue.toStr : JSValue → Str
  | JSValue.undefined => "undefined".toList
  | JSValue.str s => s
  | JSValue.num n => n.toStr

/-! ## The page -/

/-- An element of the page, with the properties the script reads or writes. -/
structure Element where
  /-- The identity of the node. -/
  node : Nat
  /-- The `id` attribute, empty when there is none. -/
  id : Str
  /-- The `value` property: a string on a form control, `undefined` elsewhere. -/
  value : Option Str
  /-- The inline `style.display`. -/
  display : Str
  /-- The `data-id` attribute read through `dataset.id`, `undefined` when absent. -/
  dataId : Option Str
  /-- The `innerText` of each element child, in order. -/
  cells : List Str
  deriving DecidableEq, Repr

/-- The document: its cookie string and its elements in tree order. -/
structure Document where
  cookie : Str
  elements : List Element
  deriving DecidableEq, Repr

/-- The init object handed to `fetch`, with the URL. -/
structure Request where
  url : Str
  method : Str
  headers : JSObject
  body : Str
  deriving DecidableEq, Repr

/-- What a handler does that is visible outside the document. -/
inductive Effect
  | fetch (request : Request)
  | alert (message : Str)
  | reload
  deriving DecidableEq, Repr

/-- The document together with the effects performed so far, oldest first. -/
structure World where
  document : Document
  trace : List Effect
  deriving DecidableEq, Repr

/-- Perform one effect. -/
def World.emit (w : World) (e : Effect) : World :=
  { w with trace := w.trace ++ [e] }

/-- The call `document.getElementById(id)`: the first element in tree order
with that id, `none` for `null`. -/
def Document.getElementById (d : Document) (id : Str) : Option Element :=
  d.elements.find? (fun e => e.id = id)

/-- An optional string as a value: `none` is `undefined`. -/
def ofOption : Option Str → JSValue
  | some s => JSValue.str s
  | none => JSValue.undefined

/-- Apply `f` to the first element that satisfies `p`; `none` when there is
no such element. -/
def updateFirst (p : Element → Bool) (f : Element → Element) : List Element → Option (List Element)
  | [] => none
  | e :: rest => if p e then some (f e :: rest) else (updateFirst p f rest).map (fun r => e :: r)

/-- The call `row.remove()`: the node leaves the document. -/
def Document.remove (d : Document) (row : Element) : Document :=
  { d with elements := d.elements.filter (fun e => e.node ≠ row.node) }

/-! ## The promise chain of `fetch` -/

/-- A thrown value or rejection reason, known by its conversion to a string. -/
structure Thrown where
  shown : Str
  deriving DecidableEq, Repr

/-- The value read from a property of the response data: `undefined`, a
string, any other value that converts to a string (known by the string it
converts to), or a value whose conversion to a string throws, such as a
parsed object whose own `toString` property is not a function (known by the
`TypeError` thrown). -/
inductive Datum
  | undefined
  | str (s : Str)
  | other (shown : Str)
  | unconvertible (typeError : Thrown)
  deriving DecidableEq, Repr

/-- The conversion of a value read from the response to a string, as string
concatenation and `alert` perform it: the string, or the error thrown. -/
def Datum.toStr : Datum → Except Thrown Str
  | Datum.undefined => Except.ok "undefined".toList
  | Datum.str s => Except.ok s
  | Datum.other shown => Except.ok shown
  | Datum.unconvertible typeError => Except.error typeError

/-- The data `res.json()` resolves to.  Reading a property of `null` throws
the given `TypeError`; any other data is known by what `data.status` and
`data.message` evaluate to. -/
inductive Data
  | null (typeError : Thrown)
  | value (status message : Datum)
  deriving DecidableEq, Repr

/-- How `fetch(...).then(res => res.json())` settles. -/
inductive Settled
  | fetchFailed (e : Thrown)
  | jsonFailed (e : Thrown)
  | parsed (data : Data)
  deriving DecidableEq, Repr

/-! ## The handlers -/

/-- The payload `addStudent` builds from the form (script.js lines 8-12);
`none` when a form field is missing and the handler throws. -/
def addStudentPayload (d : Document) : Option JSObject := do
  let name ← d.getElementById "name".toList
  let subject ← d.getElementById "subject".toList
  let marks ← d.getElementById "marks".toList
  pure [("name".toList, ofOption name.value),
        ("subject".toList, ofOption subject.value),
        ("marks".toList, JSValue.num (parseInt (ofOption marks.value).toStr))]

/-- The request `addStudent` hands to `fetch` (script.js lines 7-21); `none`
when the handler throws before calling `fetch`. -/
def addStudentRequest (d : Document) : Option Request := do
  let csrftoken := getCSRFToken d.cookie
  let payload ← addStudentPayload d
  pure {
    url := "/add/".toList
    method := "POST".toList
    headers := [("Content-Type".toList, JSValue.str "application/json".toList),
                ("X-CSRFToken".toList, csrftoken)]
    body := JSON_stringify payload }

/-- The callbacks of `addStudent` (script.js lines 22-32), run when the
request has settled.  Whatever is thrown before or inside the second `then`
callback, the conversion of `data.message` included, reaches the `catch`
callback. -/
def addStudentSettled (s : Settled) (w : World) : World :=
  match s with
  | Settled.parsed (Data.value status message) =>
    if status = Datum.str "success".toList then w.emit Effect.reload
    else
      match message.toStr with
      | Except.ok text => w.emit (Effect.alert ("Failed to add student: ".toList ++ text))
      | Except.error err => w.emit (Effect.alert ("Error occurred: ".toList ++ err.shown))
  | Settled.parsed (Data.null err) => w.emit (Effect.alert ("Error occurred: ".toList ++ err.shown))
  | Settled.fetchFailed err => w.emit (Effect.alert ("Error occurred: ".toList ++ err.shown))
  | Settled.jsonFailed err => w.emit (Effect.alert ("Error occurred: ".toList ++ err.shown))

/-- One call of `addStudent()` whose request settles as `s`. -/
def addStudent (s : Settled) (w : World) : Option World :=
  (addStudentRequest w.document).map (fun r => addStudentSettled s (w.emit (Effect.fetch r)))

/-- The payload `updateStudent(btn)` builds from `row = btn.closest('tr')`
(script.js lines 42-47); `none` when there is no row or it has fewer than
three cells and the handler throws. -/
def updateStudentPayload (row : Option Element) : Option JSObject := do
  let row ← row
  let name ← row.cells.get? 0
  let subject ← row.cells.get? 1
  let marks ← row.cells.get? 2
  pure [("id".toList, ofOption row.dataId),
        ("name".toList, JSValue.str name),
        ("subject".toList, JSValue.str subject),
        ("marks".toList, JSValue.num (parseInt marks))]

/-- The request `updateStudent(btn)` hands to `fetch` (script.js lines
38-47); `none` when the handler throws before calling `fetch`. -/
def updateStudentRequest (d : Document) (row : Option Element) : Option Request := do
  let csrftoken := getCSRFToken d.cookie
  let payload ← updateStudentPayload row
  pure {
    url := "/update/".toList
    method := "POST".toList
    headers := [("Content-Type".toList, JSValue.str "application/json".toList),
                ("X-CSRFToken".toList, csrftoken)]
    body := JSON_stringify payload }

/-- The callback of `updateStudent` (script.js line 48).  There is no
rejection handler: a failure, a `TypeError` from reading `null.status`, or a
`TypeError` from converting `data.status` for `alert`, ends the chain without
any effect. -/
def updateStudentSettled (s : Settled) (w : World) : World :=
  match s with
  | Settled.parsed (Data.value status _) =>
    match status.toStr with
    | Except.ok text => w.emit (Effect.alert text)
    | Except.error _ => w
  | _ => w

/-- One call of `updateStudent(btn)` whose request settles as `s`. -/
def updateStudent (row : Option Element) (s : Settled) (w : World) : Option World :=
  (updateStudentRequest w.document row).map
    (fun r => updateStudentSettled s (w.emit (Effect.fetch r)))

/-- The payload `deleteStudent(btn)` builds from `row = btn.closest('tr')`
(script.js line 56); `none` when there is no row and the handler throws. -/
def deleteStudentPayload (row : Option Element) : Option JSObject := do
  let row ← row
  pure [("id".toList, ofOption row.dataId)]

/-- The request `deleteStudent(btn)` hands to `fetch` (script.js lines
52-56); `none` when the handler throws before calling `fetch`. -/
def deleteStudentRequest (d : Document) (row : Option Element) : Option Request := do
  let csrftoken := getCSRFToken d.cookie
  let payload ← deleteStudentPayload row
  pure {
    url := "/delete/".toList
    method := "POST".toList
    headers := [("Content-Type".toList, JSValue.str "application/json".toList),
                ("X-CSRFToken".toList, csrftoken)]
    body := JSON_stringify payload }

/-- The callback of `deleteStudent` (script.js lines 57-59) for the row the
handler was called on.  There is no rejection handler. -/
def deleteStudentSettled (row : Element) (s : Settled) (w : World) : World :=
  match s with
  | Settled.parsed (Data.value status _) =>
    if status = Datum.str "deleted".toList then { w with document := w.document.remove row }
    else w
  | _ => w

/-- One call of `deleteStudent(btn)` whose request settles as `s`. -/
def deleteStudent (row : Option Element) (s : Settled) (w : World) : Option World :=
  match row with
  | some r =>
    (deleteStudentRequest w.document row).map
      (fun q => deleteStudentSettled r s (w.emit (Effect.fetch q)))
  | none => none

/-- The function `showAddModal()` (script.js lines 62-64): the first element
with id `modal` gets `style.display = 'block'`; `none` when there is no such
element and the assignment throws. -/
def showAddModal (w : World) : Option World :=
  (updateFirst (fun e => e.id = "modal".toList)
      (fun e => { e with display := "block".toList }) w.document.elements).map
    (fun es => { w with document := { w.document with elements := es } })

/-! ## Words of the specification -/

/-- The status carried by the response, when the request settled with data
that has properties. -/
def Settled.status : Settled → Option Datum
  | Settled.parsed (Data.value status _) => some status
  | _ => none

/-- A decimal digit, `0` to `9`. -/
def isDecimalDigit (c : Char) : Bool := decide (48 ≤ c.toNat ∧ c.toNat ≤ 57)

/-- The natural number written by a string of decimal digits. -/
def decimalValue (ds : Str) : Nat := ds.foldl (fun acc c => 10 * acc + (c.toNat - 48)) 0

/-- The integer that a text denotes, in the words of the specification and
independently of `parseInt`: an optional minus sign followed by one or more
decimal digits.  Any other text denotes no integer. -/
def denotedInt (text : Str) : Option Int :=
  match text with
  | [] => none
  | c :: rest =>
    if c = '-' then
      if rest ≠ [] ∧ rest.all isDecimalDigit then some (-(decimalValue rest : Int)) else none
    else if (c :: rest).all isDecimalDigit then some (decimalValue (c :: rest) : Int)
    else none

/-- The headers every handler hands to `fetch`. -/
def headersFor (d : Document) : JSObject :=
  [("Content-Type".toList, JSValue.str "application/json".toList),
   ("X-CSRFToken".toList, getCSRFToken d.cookie)]

/-- A non-empty string of decimal digits. -/
def isDigits (s : Str) : Bool := !s.isEmpty && s.all isDecimalDigit

/-- The integer part of a number in the JSON grammar: one digit, or several
digits of which the first is not `0`. -/
def isJSONInt : Str → Bool
  | [] => false
  | [c] => isDecimalDigit c
  | c :: rest => isDecimalDigit c && decide (c ≠ '0') && rest.all isDecimalDigit

/-- The exponent part of a number in the JSON grammar, which may be missing:
`e` or `E`, an optional sign, digits. -/
def isJSONExp : Str → Bool
  | [] => true
  | c :: rest =>
    decide (c = 'e' ∨ c = 'E') &&
      (match rest with
       | [] => false
       | s :: ds => if s = '+' ∨ s = '-' then isDigits ds else isDigits (s :: ds))

/-- The fraction and exponent parts of a number in the JSON grammar, each of
which may be missing: a point followed by digits, then the exponent. -/
def isJSONFracExp : Str → Bool
  | [] => true
  | c :: rest =>
    if c = '.' then
      isDigits (rest.takeWhile isDecimalDigit) && isJSONExp (rest.dropWhile isDecimalDigit)
    else isJSONExp (c :: rest)

/-- Whether a text is a number of the JSON grammar: an optional minus sign,
an integer part, an optional fraction, an optional exponent. -/
def isJSONNumber (s : Str) : Bool :=
  let unsigned :=
    match s with
    | [] => []
    | c :: rest => if c = '-' then rest else c :: rest
  isJSONInt (unsigned.takeWhile isDecimalDigit)
    && isJSONFracExp (unsigned.dropWhile isDecimalDigit)

/-! ## A sample page -/

/-- A text input with the given id and content. -/
def textInput (node : Nat) (id value : Str) : Element :=
  { node := node, id := id, value := some value, display := [], dataId := none, cells := [] }

/-- A table row with the given `data-id` and cell texts. -/
def tableRow (node : Nat) (dataId : Str) (cells : List Str) : Element :=
  { node := node, id := [], value := none, display := [], dataId := some dataId, cells := cells }

/-- The hidden dialog of the page. -/
def sampleModal : Element :=
  { node := 1, id := "modal".toList, value := none, display := "none".toList, dataId := none,
    cells := [] }

/-- The first row of the sample table. -/
def sampleRow : Element := tableRow 5 "7".toList ["Ada".toList, "Math".toList, "91".toList]

/-- A page with the add form filled in and two rows in the table. -/
def sampleDocument : Document :=
  { cookie := "sessionid=abc; csrftoken=Xy12".toList
    elements :=
      [sampleModal,
       textInput 2 "name".toList "Eve".toList,
       textInput 3 "subject".toList "Physics".toList,
       textInput 4 "marks".toList "78".toList,
       sampleRow,
       tableRow 6 "8".toList ["Bob".toList, "Art".toList, "n/a".toList]] }

/-- The sample page before any handler has run. -/
def sampleWorld : World := { document := sampleDocument, trace := [] }

/-! ## Lemmas on `split` -/

theorem cookieSep_eq : "; ".toList = [';', ' '] := rfl

theorem eqSep_eq : "=".toList = ['='] := rfl

theorem split_of_ne_nil (s sep : Str) (h : sep ≠ []) : split s sep = splitGo sep 0 [] s := by
  simp [split, h]

/-- A string without any occurrence of the separator is one piece. -/
theorem splitGo_of_not_occursIn (sep : Str) (s : Str) :
    ∀ cur : Str, occursIn sep s = false → splitGo sep 0 cur s = [cur.reverse ++ s] := by
  induction s with
  | nil => intro cur _; simp [splitGo]
  | cons c rest ih =>
    intro cur h
    simp only [occursIn, Bool.or_eq_false_iff] at h
    rw [splitGo, if_neg (by simp [h.1]), ih _ h.2]
    simp

/-- Up to the first `; ` the scan collects one piece and starts afresh
behind it. -/
theorem splitGo_cookieSep (s rest : Str) :
    ∀ cur : Str, occursIn [';', ' '] s = false →
      splitGo [';', ' '] 0 cur (s ++ ';' :: ' ' :: rest)
        = (cur.reverse ++ s) :: splitGo [';', ' '] 0 [] rest := by
  induction s with
  | nil => intro cur _; simp [splitGo]
  | cons c t ih =>
    intro cur h
    simp only [occursIn, Bool.or_eq_false_iff] at h
    have hp : List.isPrefixOf [';', ' '] (c :: (t ++ ';' :: ' ' :: rest)) = false := by
      cases t with
      | nil =>
        simp [List.isPrefixOf]
      | cons d t2 =>
        have := h.1
        simp [List.isPrefixOf] at this ⊢
        exact this
    rw [List.cons_append, splitGo, if_neg (by simp [hp]), ih _ h.2]
    simp

/-- Up to the first `=` the scan collects one piece and starts afresh behind
it. -/
theorem splitGo_eqSep (s rest : Str) :
    ∀ cur : Str, occursIn ['='] s = false →
      splitGo ['='] 0 cur (s ++ '=' :: rest) = (cur.reverse ++ s) :: splitGo ['='] 0 [] rest := by
  induction s with
  | nil => intro cur _; simp [splitGo]
  | cons c t ih =>
    intro cur h
    simp only [occursIn, Bool.or_eq_false_iff] at h
    have hp : List.isPrefixOf ['='] (c :: (t ++ '=' :: rest)) = false := by
      have := h.1
      simp [List.isPrefixOf] at this ⊢
      exact this
    rw [List.cons_append, splitGo, if_neg (by simp [hp]), ih _ h.2]
    simp

theorem join_cons_cons (a b : Str) (l : List Str) (sep : Str) :
    join (a :: b :: l) sep = a ++ sep ++ join (b :: l) sep := by
  simp [join, List.intercalate, List.intersperse]

theorem join_singleton (a : Str) (sep : Str) : join [a] sep = a := by
  simp [join, List.intercalate, List.intersperse]

/-- Splitting a joined cookie string gives back a first piece that holds no
separator. -/
theorem split_join_cons (a : Str) (l : List Str) (h : occursIn [';', ' '] a = false) :
    ∃ tail, splitGo [';', ' '] 0 [] (join (a :: l) [';', ' ']) = a :: tail := by
  cases l with
  | nil => exact ⟨[], by rw [join_singleton, splitGo_of_not_occursIn _ _ _ h]; simp⟩
  | cons b l =>
    refine ⟨splitGo [';', ' '] 0 [] (join (b :: l) [';', ' ']), ?_⟩
    rw [join_cons_cons]
    have := splitGo_cookieSep a (join (b :: l) [';', ' ']) [] h
    simpa using this

/-- Splitting a joined cookie string gives back the leading pieces that hold
no separator. -/
theorem split_join_append (before : List Str) (x : Str) (after : List Str)
    (hb : ∀ p ∈ before, occursIn [';', ' '] p = false) (hx : occursIn [';', ' '] x = false) :
    ∃ tail, splitGo [';', ' '] 0 [] (join (before ++ x :: after) [';', ' '])
      = before ++ x :: tail := by
  induction before with
  | nil => simpa using split_join_cons x after hx
  | cons a rest ih =>
    obtain ⟨tail, ht⟩ := ih (fun p hp => hb p (List.mem_cons_of_mem _ hp))
    refine ⟨tail, ?_⟩
    have ha := hb a (List.mem_cons_self _ _)
    cases hr : rest ++ x :: after with
    | nil => simp at hr
    | cons b l =>
      rw [List.cons_append, hr, join_cons_cons]
      have := splitGo_cookieSep a (join (b :: l) [';', ' ']) [] ha
      rw [List.append_assoc]
      simp only [List.cons_append, List.nil_append] at this ⊢
      rw [this, ← hr, ht]
      simp

/-! ## `getCSRFToken` -/

/-- A character other than `;` in front does not create an occurrence of
`; `. -/
theorem occursIn_cookieSep_cons (c : Char) (v : Str) (hc : c ≠ ';')
    (h : occursIn [';', ' '] v = false) : occursIn [';', ' '] (c :: v) = false := by
  simp only [occursIn, Bool.or_eq_false_iff]
  refine ⟨?_, h⟩
  simp [List.isPrefixOf]
  intro h2
  exact absurd h2.symm hc

/-- The value `getCSRFToken` takes out of the piece `csrftoken=v` when `v`
holds no `=`. -/
theorem token_of_piece (v : Str) (heq : occursIn ['='] v = false) :
    (split ("csrftoken=".toList ++ v) "=".toList).get? 1 = some v := by
  have h1 : "csrftoken=".toList ++ v = "csrftoken".toList ++ '=' :: v := rfl
  rw [eqSep_eq, split_of_ne_nil _ _ (by simp), h1,
    splitGo_eqSep _ _ [] (by decide), splitGo_of_not_occursIn _ _ _ heq]
  simp

/-- In a cookie string made of pieces joined by `; `, `getCSRFToken` returns
the value behind `csrftoken=` in the first piece that starts so, when that
value holds neither `; ` nor `=`. -/
theorem getCSRFToken_of_first_piece (before after : List Str) (v : Str)
    (hbefore : ∀ p ∈ before,
      occursIn "; ".toList p = false ∧ startsWith p "csrftoken=".toList = false)
    (hsep : occursIn "; ".toList v = false) (heq : occursIn "=".toList v = false) :
    getCSRFToken (join (before ++ ("csrftoken=".toList ++ v) :: after) "; ".toList)
      = JSValue.str v := by
  have hx : occursIn [';', ' '] ("csrftoken=".toList ++ v) = false := by
    have h1 : "csrftoken=".toList ++ v
        = 'c' :: 's' :: 'r' :: 'f' :: 't' :: 'o' :: 'k' :: 'e' :: 'n' :: '=' :: v := rfl
    rw [h1]
    iterate 10 apply occursIn_cookieSep_cons _ _ (by decide)
    exact hsep
  obtain ⟨tail, ht⟩ := split_join_append before ("csrftoken=".toList ++ v) after
    (fun p hp => (hbefore p hp).1) hx
  have hnone : List.find? (fun row => startsWith row "csrftoken=".toList) before = none := by
    rw [List.find?_eq_none]
    intro p hp
    have := (hbefore p hp).2
    simpa using this
  have hstart : startsWith ("csrftoken=".toList ++ v) "csrftoken=".toList = true := by
    simp [startsWith]
  have hne : "csrftoken=".toList ++ v ≠ [] := by
    intro h
    have := congrArg List.length h
    simp at this
  unfold getCSRFToken
  rw [split_of_ne_nil _ _ (by decide), cookieSep_eq, ht, List.find?_append, hnone]
  simp only [Option.none_or, List.find?_cons, hstart]
  rw [if_pos hne, token_of_piece v heq]

/-- C1 (as amended): in a cookie string made of pieces joined by `; `, when
the first piece that starts with `csrftoken=` is `csrftoken=v` and `v` holds
neither `; ` nor `=`, `getCSRFToken` returns exactly `v`, the whole value. -/
theorem getCSRFToken_first_pair (before after : List Str) (v : Str)
    (hbefore : ∀ p ∈ before,
      occursIn "; ".toList p = false ∧ startsWith p "csrftoken=".toList = false)
    (hsep : occursIn "; ".toList v = false) (heq : occursIn "=".toList v = false) :
    getCSRFToken (join (before ++ ("csrftoken=".toList ++ v) :: after) "; ".toList)
      = JSValue.str v :=
  getCSRFToken_of_first_piece before after v hbefore hsep heq

/-- Witness for C1: the token of `sessionid=abc; csrftoken=Xy12; theme=a=b`. -/
theorem getCSRFToken_first_pair_witness :
    getCSRFToken (join ["sessionid=abc".toList, "csrftoken=Xy12".toList, "theme=a=b".toList]
      "; ".toList) = JSValue.str "Xy12".toList :=
  getCSRFToken_first_pair ["sessionid=abc".toList] ["theme=a=b".toList] "Xy12".toList
    (by decide) (by decide) (by decide)

/-- C1 (as stated) fails: in the cookie string `sessionid=abc; csrftoken=a=b`
the value of the pair named csrftoken is `a=b`, which holds no `; `, and
`getCSRFToken` returns `a`; and of two pairs named csrftoken it returns the
value of the first. -/
theorem getCSRFToken_truncates_at_equals :
    getCSRFToken (join ["sessionid=abc".toList, "csrftoken=".toList ++ "a=b".toList] "; ".toList)
        = JSValue.str "a".toList
      ∧ occursIn "; ".toList "a=b".toList = false
      ∧ JSValue.str "a".toList ≠ JSValue.str "a=b".toList
      ∧ getCSRFToken (join ["csrftoken=".toList ++ "one".toList,
          "csrftoken=".toList ++ "two".toList] "; ".toList) = JSValue.str "one".toList := by
  decide

/-- C2: when no piece of the cookie string between the `; ` separators starts
with `csrftoken=`, the empty string included, `getCSRFToken` returns the
empty string. -/
theorem getCSRFToken_absent (cookie : Str)
    (h : ∀ piece ∈ split cookie "; ".toList, startsWith piece "csrftoken=".toList = false) :
    getCSRFToken cookie = JSValue.str [] := by
  have hnone : List.find? (fun row => startsWith row "csrftoken=".toList)
      (split cookie "; ".toList) = none := by
    rw [List.find?_eq_none]
    intro p hp
    have := h p hp
    simpa using this
  unfold getCSRFToken
  rw [hnone]

/-- Witness for C2: a cookie string with other cookies only. -/
theorem getCSRFToken_absent_witness :
    getCSRFToken "sessionid=abc; xcsrftoken=1".toList = JSValue.str [] :=
  getCSRFToken_absent "sessionid=abc; xcsrftoken=1".toList (by decide)

/-! ## `parseInt` on decimal numerals -/

theorem toNat_of_isDecimalDigit {c : Char} (h : isDecimalDigit c = true) :
    48 ≤ c.toNat ∧ c.toNat ≤ 57 := by
  simpa [isDecimalDigit] using h

theorem ne_of_isDecimalDigit {c : Char} (h : isDecimalDigit c = true) (x : Char)
    (hx : x.toNat < 48 ∨ 57 < x.toNat) : c ≠ x := by
  rintro rfl
  have := toNat_of_isDecimalDigit h
  omega

theorem isWhiteSpace_of_isDecimalDigit {c : Char} (h : isDecimalDigit c = true) :
    isWhiteSpace c = false := by
  have hb := toNat_of_isDecimalDigit h
  simp only [isWhiteSpace, Bool.or_eq_false_iff, Bool.and_eq_false_iff, decide_eq_false_iff_not]
  omega

theorem digitValue_of_isDecimalDigit {c : Char} (h : isDecimalDigit c = true) :
    digitValue c = some (c.toNat - 48) := by
  have hb := toNat_of_isDecimalDigit h
  simp [digitValue, hb]

theorem isRadixDigit_of_isDecimalDigit {c : Char} (h : isDecimalDigit c = true) :
    isRadixDigit 10 c = true := by
  have hb := toNat_of_isDecimalDigit h
  simp [isRadixDigit, digitValue_of_isDecimalDigit h]
  omega

theorem stripSign_of_digit {c : Char} (rest : Str) (h : isDecimalDigit c = true) :
    stripSign (c :: rest) = (false, c :: rest) := by
  have h1 := ne_of_isDecimalDigit h '-' (by decide)
  have h2 := ne_of_isDecimalDigit h '+' (by decide)
  simp [stripSign, h1, h2]

theorem stripRadix_of_digits (ds : Str) (h : ds.all isDecimalDigit = true) :
    stripRadix ds = (10, ds) := by
  match ds, h with
  | [], _ => rfl
  | [_], _ => rfl
  | c :: d :: rest, h =>
    have hd : isDecimalDigit d = true := by
      simp only [List.all_cons, Bool.and_eq_true] at h
      exact h.2.1
    have h1 := ne_of_isDecimalDigit hd 'x' (by decide)
    have h2 := ne_of_isDecimalDigit hd 'X' (by decide)
    simp [stripRadix, h1, h2]

theorem takeWhile_of_digits (ds : Str) (h : ds.all isDecimalDigit = true) :
    ds.takeWhile (isRadixDigit 10) = ds := by
  rw [List.takeWhile_eq_self_iff]
  intro c hc
  exact isRadixDigit_of_isDecimalDigit (List.all_eq_true.mp h c hc)

theorem foldl_radix_of_digits (ds : Str) (h : ds.all isDecimalDigit = true) :
    ∀ acc : Nat, ds.foldl (fun acc c => acc * 10 + (digitValue c).getD 0) acc
      = ds.foldl (fun acc c => 10 * acc + (c.toNat - 48)) acc := by
  induction ds with
  | nil => intro acc; rfl
  | cons c rest ih =>
    intro acc
    simp only [List.all_cons, Bool.and_eq_true] at h
    simp only [List.foldl_cons, digitValue_of_isDecimalDigit h.1, Option.getD_some]
    rw [Nat.mul_comm acc 10]
    exact ih h.2 _

theorem radixValue_of_digits (ds : Str) (h : ds.all isDecimalDigit = true) :
    radixValue 10 ds = decimalValue ds :=
  foldl_radix_of_digits ds h 0

/-- An integer below `2^53` is a double as it stands. -/
theorem ofSignMag_of_lt (neg : Bool) (m : Nat) (h : m < 2 ^ 53) :
    JSNumber.ofSignMag neg m = JSNumber.fin neg m := by
  have hr : roundToDouble m = some m := by
    unfold roundToDouble
    rw [if_pos h]
  unfold JSNumber.ofSignMag
  split
  · next h0 => rw [h0]
  · rw [hr]

/-- On a string of decimal digits `parseInt` gives the number they write. -/
theorem parseInt_digits (ds : Str) (hne : ds ≠ []) (h : ds.all isDecimalDigit = true) :
    parseInt ds = JSNumber.ofSignMag false (decimalValue ds) := by
  match ds, hne, h with
  | c :: rest, _, h =>
    have hc : isDecimalDigit c = true := by
      simp only [List.all_cons, Bool.and_eq_true] at h
      exact h.1
    have hw : List.dropWhile isWhiteSpace (c :: rest) = c :: rest := by
      simp [List.dropWhile, isWhiteSpace_of_isDecimalDigit hc]
    simp only [parseInt, hw, stripSign_of_digit rest hc, stripRadix_of_digits _ h,
      takeWhile_of_digits _ h, radixValue_of_digits _ h]
    simp

/-- On a minus sign followed by decimal digits `parseInt` gives the negative
of the number they write. -/
theorem parseInt_minus_digits (ds : Str) (hne : ds ≠ []) (h : ds.all isDecimalDigit = true) :
    parseInt ('-' :: ds) = JSNumber.ofSignMag true (decimalValue ds) := by
  have hw : List.dropWhile isWhiteSpace ('-' :: ds) = '-' :: ds := by
    have : isWhiteSpace '-' = false := by decide
    simp [List.dropWhile, this]
  have hs : stripSign ('-' :: ds) = (true, ds) := by simp [stripSign]
  simp only [parseInt, hw, hs, stripRadix_of_digits _ h, takeWhile_of_digits _ h,
    radixValue_of_digits _ h]
  simp [hne]

/-- A text that denotes an integer below `2^53` in magnitude is parsed to a
finite number with that magnitude, negative only when the integer is not
positive. -/
theorem parseInt_of_denotedInt (text : Str) (n : Int) (h : denotedInt text = some n)
    (hb : n.natAbs < 2 ^ 53) :
    ∃ neg, parseInt text = JSNumber.fin neg n.natAbs ∧ (0 < n → neg = false)
      ∧ (n < 0 → neg = true) := by
  match text, h with
  | c :: rest, h =>
    unfold denotedInt at h
    by_cases hc : c = '-'
    · subst hc
      simp only [if_true] at h
      split at h
      · next hd =>
        simp only [Option.some.injEq] at h
        subst h
        refine ⟨true, ?_, ?_, fun _ => rfl⟩
        · rw [parseInt_minus_digits rest hd.1 hd.2, ofSignMag_of_lt _ _ (by simpa using hb)]
          simp
        · intro hpos
          omega
      · exact absurd h (by simp)
    · simp only [if_neg hc] at h
      split at h
      · next hd =>
        simp only [Option.some.injEq] at h
        subst h
        refine ⟨false, ?_, fun _ => rfl, ?_⟩
        · rw [parseInt_digits (c :: rest) (by simp) hd, ofSignMag_of_lt _ _ (by simpa using hb)]
          simp
        · intro hneg
          omega
      · exact absurd h (by simp)

/-- The member `JSON.stringify` writes for the parsed text of an integer
below `2^53` in magnitude is the one it writes for that integer. -/
theorem serialize_parseInt_of_denotedInt (text : Str) (n : Int)
    (h : denotedInt text = some n) (hb : n.natAbs < 2 ^ 53) :
    serializeJSONProperty (JSValue.num (parseInt text))
      = serializeJSONProperty (JSValue.num (JSNumber.ofInt n)) := by
  obtain ⟨neg, hp, hpos, hneg⟩ := parseInt_of_denotedInt text n h hb
  rw [hp]
  simp only [serializeJSONProperty, JSNumber.ofInt]
  rcases lt_trichotomy n 0 with h1 | h1 | h1
  · simp [hneg h1, h1]
  · subst h1
    simp [finToString]
  · have : ¬ n < 0 := by omega
    simp [hpos h1, this]

/-! ## `parseInt` on texts without digits -/

theorem isRadixDigit_of_not_isDecimalDigit {c : Char} (h : isDecimalDigit c = false) :
    isRadixDigit 10 c = false := by
  have hb : ¬ (48 ≤ c.toNat ∧ c.toNat ≤ 57) := by simpa [isDecimalDigit] using h
  unfold isRadixDigit digitValue
  simp only [if_neg hb]
  split_ifs with h1 h2
  · simp only [decide_eq_false_iff_not]; omega
  · simp only [decide_eq_false_iff_not]; omega
  · rfl

theorem mem_of_mem_stripSign (t : Str) (c : Char) (h : c ∈ (stripSign t).2) : c ∈ t := by
  cases t with
  | nil => simp [stripSign] at h
  | cons a rest =>
    simp only [stripSign] at h
    split_ifs at h
    · exact List.mem_cons_of_mem _ h
    · exact List.mem_cons_of_mem _ h
    · exact h

theorem stripRadix_of_no_digit (u : Str) (h : ∀ c ∈ u, isDecimalDigit c = false) :
    stripRadix u = (10, u) := by
  match u, h with
  | [], _ => rfl
  | [_], _ => rfl
  | c :: d :: rest, h =>
    have hc : c ≠ '0' := by
      rintro rfl
      exact absurd (h '0' (List.mem_cons_self _ _)) (by decide)
    simp [stripRadix, hc]

/-- A text without any decimal digit is parsed to `NaN`. -/
theorem parseInt_of_no_digit (text : Str) (h : ∀ c ∈ text, isDecimalDigit c = false) :
    parseInt text = JSNumber.nan := by
  have h1 : ∀ c ∈ text.dropWhile isWhiteSpace, isDecimalDigit c = false :=
    fun c hc => h c ((List.dropWhile_sublist _).subset hc)
  have h2 : ∀ c ∈ (stripSign (text.dropWhile isWhiteSpace)).2, isDecimalDigit c = false :=
    fun c hc => h1 c (mem_of_mem_stripSign _ c hc)
  have h3 : List.takeWhile (isRadixDigit 10) (stripSign (text.dropWhile isWhiteSpace)).2 = [] := by
    cases hu : (stripSign (text.dropWhile isWhiteSpace)).2 with
    | nil => rfl
    | cons a rest =>
      have ha : isDecimalDigit a = false := h2 a (by rw [hu]; exact List.mem_cons_self _ _)
      simp [List.takeWhile, isRadixDigit_of_not_isDecimalDigit ha]
  simp only [parseInt, stripRadix_of_no_digit _ h2, h3]
  simp

/-! ## `deleteStudent` -/

/-- The document after the callback of `deleteStudent`. -/
theorem deleteStudentSettled_document (row : Element) (s : Settled) (w : World) :
    (deleteStudentSettled row s w).document
      = if s.status = some (Datum.str "deleted".toList) then w.document.remove row
        else w.document := by
  cases s with
  | fetchFailed e => rfl
  | jsonFailed e => rfl
  | parsed data =>
    cases data with
    | null e => rfl
    | value status message =>
      by_cases hs : status = Datum.str "deleted".toList
      · subst hs; rfl
      · have h2 : ¬ (Settled.parsed (Data.value status message)).status
            = some (Datum.str "deleted".toList) := by
          intro h; exact hs (Option.some.inj h)
        rw [if_neg h2]
        unfold deleteStudentSettled
        simp only
        rw [if_neg hs]

/-- The callback of `deleteStudent` performs no effect. -/
theorem deleteStudentSettled_trace (row : Element) (s : Settled) (w : World) :
    (deleteStudentSettled row s w).trace = w.trace := by
  unfold deleteStudentSettled
  split
  · split <;> rfl
  · rfl

theorem deleteStudent_some (row : Element) (s : Settled) (w : World) :
    deleteStudent (some row) s w = some (deleteStudentSettled row s (w.emit (Effect.fetch
      { url := "/delete/".toList, method := "POST".toList,
        headers := [("Content-Type".toList, JSValue.str "application/json".toList),
                    ("X-CSRFToken".toList, getCSRFToken w.document.cookie)],
        body := JSON_stringify [("id".toList, ofOption row.dataId)] }))) := rfl

theorem mem_remove (d : Document) (row e : Element) :
    e ∈ (d.remove row).elements ↔ e ∈ d.elements ∧ e.node ≠ row.node := by
  simp [Document.remove]

/-- C3: after `deleteStudent` has handled the outcome of its request, the row
is gone from the document if and only if the response carries the status
`"deleted"`, exactly that string; the rows of other nodes stay, and for every
other outcome the document is unchanged. -/
theorem deleteStudent_removes_iff_deleted (row : Element) (s : Settled) (w : World)
    (hrow : row ∈ w.document.elements) :
    ∃ w1, deleteStudent (some row) s w = some w1
      ∧ (row ∉ w1.document.elements ↔ s.status = some (Datum.str "deleted".toList))
      ∧ (s.status ≠ some (Datum.str "deleted".toList) → w1.document = w.document)
      ∧ (∀ e ∈ w.document.elements, e.node ≠ row.node → e ∈ w1.document.elements) := by
  refine ⟨_, deleteStudent_some row s w, ?_, ?_, ?_⟩
  · rw [deleteStudentSettled_document]
    by_cases hs : s.status = some (Datum.str "deleted".toList)
    · rw [if_pos hs, mem_remove]
      simp [hs]
    · rw [if_neg hs]
      simp only [hs, iff_false, not_not]
      exact hrow
  · intro hs
    rw [deleteStudentSettled_document, if_neg hs]
    rfl
  · intro e he hn
    rw [deleteStudentSettled_document]
    split
    · rw [mem_remove]; exact ⟨he, hn⟩
    · exact he

/-- Witness for C3: the first row of the sample table is deleted. -/
theorem deleteStudent_removes_iff_deleted_witness :
    ∃ w1, deleteStudent (some sampleRow)
        (Settled.parsed (Data.value (Datum.str "deleted".toList) Datum.undefined)) sampleWorld
        = some w1
      ∧ (sampleRow ∉ w1.document.elements ↔
          (Settled.parsed (Data.value (Datum.str "deleted".toList) Datum.undefined)).status
            = some (Datum.str "deleted".toList))
      ∧ ((Settled.parsed (Data.value (Datum.str "deleted".toList) Datum.undefined)).status
            ≠ some (Datum.str "deleted".toList) → w1.document = sampleWorld.document)
      ∧ (∀ e ∈ sampleWorld.document.elements, e.node ≠ sampleRow.node →
          e ∈ w1.document.elements) :=
  deleteStudent_removes_iff_deleted sampleRow _ sampleWorld (by decide)

/-! ## `addStudent` and `updateStudent`: the callbacks -/

theorem addStudent_of_request (s : Settled) (w : World) (r : Request)
    (hr : addStudentRequest w.document = some r) :
    addStudent s w = some (addStudentSettled s (w.emit (Effect.fetch r))) := by
  simp [addStudent, hr]

/-- The callbacks of `addStudent` leave the document as it is. -/
theorem addStudentSettled_document (s : Settled) (w : World) :
    (addStudentSettled s w).document = w.document := by
  unfold addStudentSettled
  split
  · split
    · rfl
    · split <;> rfl
  · rfl
  · rfl
  · rfl

/-- What the second `then` callback of `addStudent` does for a status other
than `"success"`. -/
theorem addStudentSettled_of_ne (status message : Datum) (w : World)
    (hs : status ≠ Datum.str "success".toList) :
    addStudentSettled (Settled.parsed (Data.value status message)) w
      = match message.toStr with
        | Except.ok text => w.emit (Effect.alert ("Failed to add student: ".toList ++ text))
        | Except.error err => w.emit (Effect.alert ("Error occurred: ".toList ++ err.shown)) := by
  unfold addStudentSettled
  simp only
  rw [if_neg hs]

/-- C8 (as amended): when the response to `addStudent` carries a status and a
message, the page is reloaded and no alert is shown if and only if the status
is exactly `"success"`; for every other status there is no reload and exactly
one alert.  Its text is `Failed to add student: ` followed by the message: by
the message itself when it is a string, by `undefined` when it is missing, by
its conversion to a string when it is another value; and when that conversion
throws, the one alert reads `Error occurred: ` followed by the error.  The
document is left as it was. -/
theorem addStudent_branches_on_status (status message : Datum) (w : World) (r : Request)
    (hr : addStudentRequest w.document = some r) :
    ∃ w1, addStudent (Settled.parsed (Data.value status message)) w = some w1
      ∧ w1.document = w.document
      ∧ (Effect.reload ∈ w1.trace.drop w.trace.length ↔ status = Datum.str "success".toList)
      ∧ (status = Datum.str "success".toList →
          w1.trace = w.trace ++ [Effect.fetch r, Effect.reload])
      ∧ (status ≠ Datum.str "success".toList →
          (∀ m, message = Datum.str m →
            w1.trace = w.trace ++ [Effect.fetch r,
              Effect.alert ("Failed to add student: ".toList ++ m)])
          ∧ (message = Datum.undefined →
            w1.trace = w.trace ++ [Effect.fetch r,
              Effect.alert "Failed to add student: undefined".toList])
          ∧ (∀ shown, message = Datum.other shown →
            w1.trace = w.trace ++ [Effect.fetch r,
              Effect.alert ("Failed to add student: ".toList ++ shown)])
          ∧ (∀ err, message = Datum.unconvertible err →
            w1.trace = w.trace ++ [Effect.fetch r,
              Effect.alert ("Error occurred: ".toList ++ err.shown)])) := by
  refine ⟨_, addStudent_of_request _ w r hr, ?_, ?_, ?_, ?_⟩
  · rw [addStudentSettled_document]
    rfl
  · by_cases hs : status = Datum.str "success".toList
    · subst hs
      simp [addStudentSettled, World.emit]
    · rw [addStudentSettled_of_ne status message _ hs]
      simp only [hs, iff_false]
      cases message <;> simp [Datum.toStr, World.emit]
  · intro hs
    subst hs
    simp [addStudentSettled, World.emit]
  · intro hs
    rw [addStudentSettled_of_ne status message _ hs]
    refine ⟨?_, ?_, ?_, ?_⟩
    · intro m hm
      subst hm
      simp [Datum.toStr, World.emit]
    · intro hm
      subst hm
      simp [Datum.toStr, World.emit]
    · intro shown hm
      subst hm
      simp [Datum.toStr, World.emit]
    · intro err hm
      subst hm
      simp [Datum.toStr, World.emit]

/-- Witness for C8: the sample form is refused with the message `Marks out of
range`, which the one alert shows. -/
theorem addStudent_branches_on_status_witness :
    ∃ r, addStudentRequest sampleWorld.document = some r ∧
      ∃ w1, addStudent (Settled.parsed (Data.value (Datum.str "error".toList)
          (Datum.str "Marks out of range".toList))) sampleWorld = some w1
      ∧ w1.document = sampleWorld.document
      ∧ w1.trace = [Effect.fetch r,
          Effect.alert "Failed to add student: Marks out of range".toList] := by
  obtain ⟨w1, h1, h2, _, _, h5⟩ := addStudent_branches_on_status (Datum.str "error".toList)
    (Datum.str "Marks out of range".toList) sampleWorld _ rfl
  exact ⟨_, rfl, w1, h1, h2, (h5 (by decide)).1 _ rfl⟩

/-- C8 (as stated) fails: answered with the status `error` and a message
object whose conversion to a string throws, `addStudent` shows the one alert
`Error occurred: ` followed by the error, not `Failed to add student: `
followed by the message. -/
theorem addStudent_alert_for_unconvertible_message :
    (addStudent (Settled.parsed (Data.value (Datum.str "error".toList)
        (Datum.unconvertible ⟨"TypeError: Cannot convert object to primitive value".toList⟩)))
        sampleWorld).map (fun w => w.trace.drop 1)
      = some [Effect.alert
          "Error occurred: TypeError: Cannot convert object to primitive value".toList] := by
  decide

/-! ## Rendering of integers below `2^53` -/

/-- Rounding a number above `x` never gives `x`, for `x` below `2^53`. -/
theorem lt_of_roundToDouble (x n y : Nat) (hx : x < 2 ^ 53) (hn : x < n)
    (h : roundToDouble n = some y) : x < y := by
  unfold roundToDouble at h
  by_cases hlt : n < 2 ^ 53
  · rw [if_pos hlt] at h
    simp only [Option.some.injEq] at h
    omega
  · rw [if_neg hlt] at h
    generalize 2 ^ 1024 = big at h
    simp only at h
    have hn0 : n ≠ 0 := by omega
    have hL : 53 ≤ n.log2 := (Nat.le_log2 hn0).2 (by omega)
    have hpow : 2 ^ n.log2 ≤ n := Nat.log2_self_le hn0
    have hsplit : 2 ^ n.log2 = 2 ^ 52 * 2 ^ (n.log2 - 52) := by
      rw [← Nat.pow_add]
      congr 1
      omega
    have hq : 2 ^ 52 ≤ n / 2 ^ (n.log2 - 52) := by
      rw [Nat.le_div_iff_mul_le (Nat.pos_pow_of_pos _ (by decide))]
      omega
    have h53 : 2 ^ 53 ≤ 2 ^ n.log2 := Nat.pow_le_pow_right (by decide) hL
    have hbase : 2 ^ 52 * 2 ^ (n.log2 - 52) ≤ n / 2 ^ (n.log2 - 52) * 2 ^ (n.log2 - 52) :=
      Nat.mul_le_mul_right _ hq
    have hstep : n / 2 ^ (n.log2 - 52) * 2 ^ (n.log2 - 52)
        ≤ (n / 2 ^ (n.log2 - 52) + 1) * 2 ^ (n.log2 - 52) :=
      Nat.mul_le_mul_right _ (Nat.le_succ _)
    split_ifs at h
    · simp only [Option.some.injEq] at h
      omega
    · simp only [Option.some.injEq] at h
      omega

/-- Below `2^53` the only decimal that rounds to `x` with any number of
digits is `x` itself. -/
theorem shortestAt_eq (x k v : Nat) (hx : x < 2 ^ 53) (h : shortestAt x k = some v) : v = x := by
  unfold shortestAt at h
  simp only at h
  have hp : 0 < 10 ^ ((decimal x).length - k) := Nat.pos_pow_of_pos _ (by decide)
  have hlo : x / 10 ^ ((decimal x).length - k) * 10 ^ ((decimal x).length - k) ≤ x :=
    Nat.div_mul_le_self _ _
  have hhi : x < x / 10 ^ ((decimal x).length - k) * 10 ^ ((decimal x).length - k)
      + 10 ^ ((decimal x).length - k) := Nat.lt_div_mul_add hp
  have hrlo : roundToDouble (x / 10 ^ ((decimal x).length - k) * 10 ^ ((decimal x).length - k))
      = some (x / 10 ^ ((decimal x).length - k) * 10 ^ ((decimal x).length - k)) := by
    unfold roundToDouble
    rw [if_pos (by omega)]
  have hrhi : ¬ roundToDouble (x / 10 ^ ((decimal x).length - k) * 10 ^ ((decimal x).length - k)
      + 10 ^ ((decimal x).length - k)) = some x := by
    intro hh
    have := lt_of_roundToDouble x _ x hx hhi hh
    omega
  rw [hrlo] at h
  simp only [hrhi, decide_False, Bool.and_false, Bool.false_eq_true, if_false] at h
  split at h
  · next hok =>
    simp only [decide_eq_true_eq, Option.some.injEq] at hok h
    omega
  · exact absurd h (by simp)

theorem shortest_fst (x : Nat) (hx : x < 2 ^ 53) : (shortest x).1 = x := by
  unfold shortest
  simp only
  split
  · next vk hvk =>
    obtain ⟨k, _, hk⟩ := List.exists_of_findSome?_eq_some hvk
    cases hs : shortestAt x k with
    | none => simp [hs] at hk
    | some v =>
      simp only [hs, Option.map, Option.some.injEq] at hk
      rw [← hk]
      exact shortestAt_eq x k v hx hs
  · rfl

theorem length_toDigitsCore (fuel : Nat) :
    ∀ (n : Nat) (ds : List Char) (k : Nat), 1 ≤ k → n < 10 ^ k →
      (Nat.toDigitsCore 10 fuel n ds).length ≤ ds.length + k := by
  induction fuel with
  | zero => intro n ds k _ _; simp [Nat.toDigitsCore]
  | succ fuel ih =>
    intro n ds k hk hn
    unfold Nat.toDigitsCore
    simp only
    split
    · simp only [List.length_cons]; omega
    · next hne =>
      have h10 : 10 ≤ n := by
        by_contra hc
        exact hne (Nat.div_eq_of_lt (by omega))
      have hk2 : 2 ≤ k := by
        by_contra hc
        have : k = 1 := by omega
        subst this
        omega
      have hdiv : n / 10 < 10 ^ (k - 1) := by
        rw [Nat.div_lt_iff_lt_mul (by decide)]
        have : 10 ^ k = 10 ^ (k - 1) * 10 := by
          rw [← Nat.pow_succ]
          congr 1
          omega
        omega
      have := ih (n / 10) (Nat.digitChar (n % 10) :: ds) (k - 1) (by omega) hdiv
      simp only [List.length_cons] at this
      omega

theorem length_decimal (n : Nat) (h : n < 2 ^ 53) : (decimal n).length ≤ 21 := by
  have := length_toDigitsCore (n + 1) n [] 16 (by decide) (by omega)
  simp only [List.length_nil] at this
  unfold decimal Nat.toDigits
  omega

/-- An integer below `2^53` is written with its decimal digits. -/
theorem magToString_of_lt (x : Nat) (hx : x < 2 ^ 53) : magToString x = decimal x := by
  have h1 := shortest_fst x hx
  unfold magToString
  cases hs : shortest x with
  | mk v k =>
    rw [hs] at h1
    simp only at h1
    subst h1
    simp only
    rw [if_pos (length_decimal v hx)]

/-! ## Payloads -/

/-- The output of `JSON.stringify` depends on the last property only through
the member written for it. -/
theorem JSON_stringify_congr_last (l : JSObject) (k : Str) (v v1 : JSValue)
    (h : serializeJSONProperty v = serializeJSONProperty v1) :
    JSON_stringify (l ++ [(k, v)]) = JSON_stringify (l ++ [(k, v1)]) := by
  have hm : serializeMember (k, v) = serializeMember (k, v1) := by
    unfold serializeMember
    rw [h]
  unfold JSON_stringify
  rw [List.filterMap_append, List.filterMap_append]
  simp only [List.filterMap_cons, hm]

/-- The member written for the parsed text of an integer below `2^53` in
magnitude: a number, with the decimal digits of the integer behind its
sign. -/
theorem member_of_denotedInt (text : Str) (n : Int) (h : denotedInt text = some n)
    (hb : n.natAbs < 2 ^ 53) :
    serializeJSONProperty (JSValue.num (parseInt text))
      = JSONMember.number (if n < 0 then '-' :: decimal n.natAbs else decimal n.natAbs) := by
  rw [serialize_parseInt_of_denotedInt text n h hb]
  simp only [serializeJSONProperty, JSNumber.ofInt, finToString]
  rcases lt_trichotomy n 0 with h1 | h1 | h1
  · have h0 : n.natAbs ≠ 0 := by omega
    simp only [h1, decide_True, if_true, if_neg h0, magToString_of_lt _ hb]
  · subst h1
    rfl
  · have h0 : n.natAbs ≠ 0 := by omega
    have h2 : ¬ n < 0 := by omega
    simp only [h2, decide_False, if_neg h0, magToString_of_lt _ hb]
    rfl

theorem addStudentPayload_eq (d : Document) (en es em : Element)
    (hn : d.getElementById "name".toList = some en)
    (hs : d.getElementById "subject".toList = some es)
    (hm : d.getElementById "marks".toList = some em) :
    addStudentPayload d = some
      [("name".toList, ofOption en.value), ("subject".toList, ofOption es.value),
       ("marks".toList, JSValue.num (parseInt (ofOption em.value).toStr))] := by
  unfold addStudentPayload
  rw [hn, hs, hm]
  rfl

theorem addStudentRequest_eq (d : Document) (p : JSObject) (hp : addStudentPayload d = some p) :
    addStudentRequest d = some
      { url := "/add/".toList, method := "POST".toList,
        headers := [("Content-Type".toList, JSValue.str "application/json".toList),
                    ("X-CSRFToken".toList, getCSRFToken d.cookie)],
        body := JSON_stringify p } := by
  unfold addStudentRequest
  rw [hp]
  rfl

theorem updateStudentPayload_eq (row : Element) (name subject marks : Str) (more : List Str)
    (hcells : row.cells = name :: subject :: marks :: more) :
    updateStudentPayload (some row) = some
      [("id".toList, ofOption row.dataId), ("name".toList, JSValue.str name),
       ("subject".toList, JSValue.str subject), ("marks".toList, JSValue.num (parseInt marks))] := by
  unfold updateStudentPayload
  simp only [Option.bind_eq_bind, Option.some_bind, hcells]
  rfl

theorem updateStudentRequest_eq (d : Document) (row : Option Element) (p : JSObject)
    (hp : updateStudentPayload row = some p) :
    updateStudentRequest d row = some
      { url := "/update/".toList, method := "POST".toList,
        headers := [("Content-Type".toList, JSValue.str "application/json".toList),
                    ("X-CSRFToken".toList, getCSRFToken d.cookie)],
        body := JSON_stringify p } := by
  unfold updateStudentRequest
  rw [hp]
  rfl

/-- C4 (as amended): for every content of the fields `name` and `subject`,
and every content of the field `marks` that is an optional minus sign
followed by decimal digits and denotes an integer below `2^53` in magnitude,
`addStudent` posts to `/add/` the JSON serialization of the object with
exactly the fields name, subject and marks, name and subject being the field
values verbatim and marks that integer. -/
theorem addStudent_payload_matches_form (d : Document) (en es em : Element)
    (name subject marks : Str) (n : Int)
    (hn : d.getElementById "name".toList = some en) (hnv : en.value = some name)
    (hs : d.getElementById "subject".toList = some es) (hsv : es.value = some subject)
    (hm : d.getElementById "marks".toList = some em) (hmv : em.value = some marks)
    (hden : denotedInt marks = some n) (hb : n.natAbs < 2 ^ 53) :
    addStudentRequest d = some
      { url := "/add/".toList, method := "POST".toList,
        headers := [("Content-Type".toList, JSValue.str "application/json".toList),
                    ("X-CSRFToken".toList, getCSRFToken d.cookie)],
        body := JSON_stringify
          [("name".toList, JSValue.str name), ("subject".toList, JSValue.str subject),
           ("marks".toList, JSValue.num (JSNumber.ofInt n))] } := by
  rw [addStudentRequest_eq d _ (addStudentPayload_eq d en es em hn hs hm), hnv, hsv, hmv]
  have := JSON_stringify_congr_last
    [("name".toList, JSValue.str name), ("subject".toList, JSValue.str subject)]
    "marks".toList _ _ (serialize_parseInt_of_denotedInt marks n hden hb)
  simp only [List.cons_append, List.nil_append] at this
  simp only [ofOption, JSValue.toStr]
  rw [this]

/-- Witness for C4: the sample form, whose marks field holds `78`. -/
theorem addStudent_payload_matches_form_witness :
    addStudentRequest sampleDocument = some
      { url := "/add/".toList, method := "POST".toList,
        headers := [("Content-Type".toList, JSValue.str "application/json".toList),
                    ("X-CSRFToken".toList, getCSRFToken sampleDocument.cookie)],
        body := JSON_stringify
          [("name".toList, JSValue.str "Eve".toList),
           ("subject".toList, JSValue.str "Physics".toList),
           ("marks".toList, JSValue.num (JSNumber.ofInt 78))] } :=
  addStudent_payload_matches_form sampleDocument
    (textInput 2 "name".toList "Eve".toList) (textInput 3 "subject".toList "Physics".toList)
    (textInput 4 "marks".toList "78".toList) "Eve".toList "Physics".toList "78".toList 78
    (by decide) rfl (by decide) rfl (by decide) rfl (by decide) (by decide)

/-- C4 (as stated) fails: with the marks field left empty the text denotes no
integer, `parseInt` gives `NaN`, and the body posted to `/add/` has `null`
for marks. -/
theorem addStudent_empty_marks_is_null :
    (addStudentRequest
        { cookie := "csrftoken=Xy12".toList
          elements := [textInput 1 "name".toList "Eve".toList,
                       textInput 2 "subject".toList "Physics".toList,
                       textInput 3 "marks".toList []] }).map (fun r => r.body)
      = some "\x7b\"name\":\"Eve\",\"subject\":\"Physics\",\"marks\":null\x7d".toList
    ∧ parseInt [] = JSNumber.nan
    ∧ denotedInt [] = none := by
  decide

/-! ## The marks member -/

theorem addStudentPayload_some (d : Document) (p : JSObject) (h : addStudentPayload d = some p) :
    ∃ en es em, d.getElementById "name".toList = some en
      ∧ d.getElementById "subject".toList = some es
      ∧ d.getElementById "marks".toList = some em
      ∧ p = [("name".toList, ofOption en.value), ("subject".toList, ofOption es.value),
             ("marks".toList, JSValue.num (parseInt (ofOption em.value).toStr))] := by
  unfold addStudentPayload at h
  cases h1 : d.getElementById "name".toList with
  | none => rw [h1] at h; exact absurd h (by simp)
  | some en =>
    cases h2 : d.getElementById "subject".toList with
    | none => rw [h1, h2] at h; exact absurd h (by simp)
    | some es =>
      cases h3 : d.getElementById "marks".toList with
      | none => rw [h1, h2, h3] at h; exact absurd h (by simp)
      | some em =>
        rw [h1, h2, h3] at h
        exact ⟨en, es, em, rfl, rfl, rfl, (Option.some.inj h).symm⟩

theorem updateStudentPayload_some (row : Option Element) (p : JSObject)
    (h : updateStudentPayload row = some p) :
    ∃ r name subject marks more, row = some r ∧ r.cells = name :: subject :: marks :: more
      ∧ p = [("id".toList, ofOption r.dataId), ("name".toList, JSValue.str name),
             ("subject".toList, JSValue.str subject),
             ("marks".toList, JSValue.num (parseInt marks))] := by
  cases row with
  | none => exact absurd h (by simp [updateStudentPayload])
  | some r =>
    match hc : r.cells with
    | name :: subject :: marks :: more =>
      rw [updateStudentPayload_eq r name subject marks more hc] at h
      exact ⟨r, name, subject, marks, more, rfl, hc, (Option.some.inj h).symm⟩
    | [] => exact absurd h (by simp [updateStudentPayload, hc])
    | [_] => exact absurd h (by simp [updateStudentPayload, hc])
    | [_, _] => exact absurd h (by simp [updateStudentPayload, hc])

/-! ## Numbers written by `JSON.stringify` are numbers of the JSON grammar -/

theorem isDecimalDigit_digitChar (m : Nat) (h : m < 10) :
    isDecimalDigit (Nat.digitChar m) = true := by
  interval_cases m <;> decide

theorem digitChar_ne_zero (m : Nat) (h : m < 10) (h0 : m ≠ 0) : Nat.digitChar m ≠ '0' := by
  interval_cases m <;> first | exact absurd rfl h0 | decide

/-- With enough fuel the digits of a positive number start with a digit
other than `0`, and all of them are decimal digits. -/
theorem toDigitsCore_shape (fuel : Nat) :
    ∀ (n : Nat) (ds : List Char), n < fuel → n ≠ 0 →
      ∃ c pre, Nat.toDigitsCore 10 fuel n ds = c :: (pre ++ ds)
        ∧ isDecimalDigit c = true ∧ c ≠ '0' ∧ pre.all isDecimalDigit = true := by
  induction fuel with
  | zero => intro n ds h _; omega
  | succ fuel ih =>
    intro n ds hn h0
    unfold Nat.toDigitsCore
    simp only
    have hm : n % 10 < 10 := Nat.mod_lt _ (by decide)
    split
    · next hq =>
      have hlt : n < 10 := by
        by_contra hc
        have : 1 ≤ n / 10 := (Nat.le_div_iff_mul_le (by decide)).2 (by omega)
        omega
      have hmod : n % 10 = n := Nat.mod_eq_of_lt hlt
      refine ⟨Nat.digitChar (n % 10), [], rfl, isDecimalDigit_digitChar _ hm, ?_, rfl⟩
      rw [hmod]
      exact digitChar_ne_zero n hlt h0
    · next hq =>
      have hlt : n / 10 < fuel := by
        have : n / 10 < n := Nat.div_lt_self (by omega) (by decide)
        omega
      obtain ⟨c, pre, he, hc, hc0, hpre⟩ := ih (n / 10) (Nat.digitChar (n % 10) :: ds) hlt hq
      refine ⟨c, pre ++ [Nat.digitChar (n % 10)], ?_, hc, hc0, ?_⟩
      · rw [he]
        simp
      · simp only [List.all_append, hpre, List.all_cons, isDecimalDigit_digitChar _ hm,
          List.all_nil, Bool.and_self]

/-- The decimal digits of a number: a digit other than `0` followed by
digits, or the single digit `0`. -/
theorem decimal_shape (v : Nat) :
    ∃ c pre, decimal v = c :: pre ∧ isDecimalDigit c = true
      ∧ (pre = [] ∨ c ≠ '0') ∧ pre.all isDecimalDigit = true := by
  by_cases h0 : v = 0
  · subst h0
    exact ⟨'0', [], rfl, by decide, Or.inl rfl, rfl⟩
  · obtain ⟨c, pre, he, hc, hc0, hpre⟩ := toDigitsCore_shape (v + 1) v [] (by omega) h0
    refine ⟨c, pre, ?_, hc, Or.inr hc0, hpre⟩
    unfold decimal Nat.toDigits
    rw [he]
    simp

theorem isJSONInt_of_shape (c : Char) (pre : Str) (hc : isDecimalDigit c = true)
    (h0 : pre = [] ∨ c ≠ '0') (hpre : pre.all isDecimalDigit = true) :
    isJSONInt (c :: pre) = true := by
  cases pre with
  | nil => exact hc
  | cons a rest =>
    have hne : c ≠ '0' := by
      rcases h0 with h | h
      · exact absurd h (by simp)
      · exact h
    simp only [isJSONInt, hc, hpre, Bool.and_true, Bool.true_and, decide_eq_true_eq]
    exact hne

/-- Digits in front of a text that does not go on with a digit are what
`takeWhile` takes and `dropWhile` drops. -/
theorem takeWhile_dropWhile_digits (a b : Str) (ha : a.all isDecimalDigit = true)
    (hb : b = [] ∨ ∃ c t, b = c :: t ∧ isDecimalDigit c = false) :
    (a ++ b).takeWhile isDecimalDigit = a ∧ (a ++ b).dropWhile isDecimalDigit = b := by
  induction a with
  | nil =>
    rcases hb with h | ⟨c, t, h, hc⟩
    · subst h; exact ⟨rfl, rfl⟩
    · subst h
      simp [List.takeWhile, List.dropWhile, hc]
  | cons x rest ih =>
    simp only [List.all_cons, Bool.and_eq_true] at ha
    obtain ⟨h1, h2⟩ := ih ha.2
    simp [List.takeWhile, List.dropWhile, ha.1, h1, h2]

theorem isDigits_decimal (v : Nat) : isDigits (decimal v) = true := by
  obtain ⟨c, pre, he, hc, _, hpre⟩ := decimal_shape v
  rw [he]
  simp [isDigits, hc, hpre]

/-- A text that starts with a digit is a JSON number when it is an unsigned
one. -/
theorem isJSONNumber_of_digit_head (c : Char) (t : Str) (hc : isDecimalDigit c = true)
    (h : (isJSONInt ((c :: t).takeWhile isDecimalDigit)
      && isJSONFracExp ((c :: t).dropWhile isDecimalDigit)) = true) :
    isJSONNumber (c :: t) = true := by
  have hne : c ≠ '-' := ne_of_isDecimalDigit hc '-' (by decide)
  unfold isJSONNumber
  simp only [if_neg hne]
  exact h

theorem shortest_snd_pos (x : Nat) : 1 ≤ (shortest x).2 := by
  unfold shortest
  simp only
  split
  · next vk hvk =>
    obtain ⟨k, hk, hf⟩ := List.exists_of_findSome?_eq_some hvk
    cases hs : shortestAt x k with
    | none => simp [hs] at hf
    | some v =>
      simp only [hs, Option.map, Option.some.injEq] at hf
      rw [← hf]
      simp only [List.mem_map, List.mem_range] at hk
      obtain ⟨i, _, hi⟩ := hk
      omega
  · obtain ⟨c, pre, he, _⟩ := decimal_shape x
    rw [he]
    simp

/-- The text `Number::toString` gives for a positive integer-valued double is
an unsigned number of the JSON grammar that starts with a digit. -/
theorem magToString_shape (x : Nat) :
    ∃ c t, magToString x = c :: t ∧ isDecimalDigit c = true
      ∧ (isJSONInt ((c :: t).takeWhile isDecimalDigit)
          && isJSONFracExp ((c :: t).dropWhile isDecimalDigit)) = true := by
  have hk := shortest_snd_pos x
  unfold magToString
  cases hs : shortest x with
  | mk v k =>
    rw [hs] at hk
    simp only at hk ⊢
    obtain ⟨c, pre, he, hc, h0, hpre⟩ := decimal_shape v
    have hall : (c :: pre).all isDecimalDigit = true := by
      simp [hc, hpre]
    split
    · refine ⟨c, pre, he, hc, ?_⟩
      have := takeWhile_dropWhile_digits (c :: pre) [] hall (Or.inl rfl)
      rw [List.append_nil] at this
      rw [this.1, this.2, isJSONInt_of_shape c pre hc h0 hpre]
      rfl
    · next hlen =>
      rw [he] at hlen ⊢
      have hexp : isJSONExp ('e' :: '+' :: decimal ((c :: pre).length - 1)) = true := by
        obtain ⟨e, epre, hee, hec, _, hepre⟩ := decimal_shape ((c :: pre).length - 1)
        rw [hee]
        simp [isJSONExp, isDigits, hec, hepre]
      have he1 : isDecimalDigit 'e' = false := by decide
      have hp1 : isDecimalDigit '.' = false := by decide
      split
      · refine ⟨c, 'e' :: '+' :: decimal ((c :: pre).length - 1), by simp, hc, ?_⟩
        have := takeWhile_dropWhile_digits [c]
          ('e' :: '+' :: decimal ((c :: pre).length - 1)) (by simp [hc])
          (Or.inr ⟨_, _, rfl, he1⟩)
        simp only [List.cons_append, List.nil_append] at this
        rw [this.1, this.2]
        simp only [isJSONInt, hc, Bool.true_and]
        simp only [isJSONFracExp, if_neg (show ¬ 'e' = '.' by decide)]
        exact hexp
      · next hk1 =>
        have hk2 : 2 ≤ k := by omega
        have hfrac : ((c :: pre).take k).drop 1 = pre.take (k - 1) := by
          cases k with
          | zero => omega
          | succ j => simp
        have hfd : (pre.take (k - 1)).all isDecimalDigit = true := by
          rw [List.all_eq_true] at hpre ⊢
          intro y hy
          exact hpre y (List.mem_of_mem_take hy)
        have hfne : pre.take (k - 1) ≠ [] := by
          intro hh
          have hl := congrArg List.length hh
          simp only [List.length_take, List.length_nil, List.length_cons] at hl hlen
          omega
        refine ⟨c, '.' :: (pre.take (k - 1)
          ++ 'e' :: '+' :: decimal ((c :: pre).length - 1)), ?_, hc, ?_⟩
        · rw [hfrac]
          simp
        · have h1 := takeWhile_dropWhile_digits [c]
            ('.' :: (pre.take (k - 1) ++ 'e' :: '+' :: decimal ((c :: pre).length - 1)))
            (by simp [hc]) (Or.inr ⟨_, _, rfl, hp1⟩)
          simp only [List.cons_append, List.nil_append] at h1
          rw [h1.1, h1.2]
          have h2 := takeWhile_dropWhile_digits (pre.take (k - 1))
            ('e' :: '+' :: decimal ((c :: pre).length - 1)) hfd (Or.inr ⟨_, _, rfl, he1⟩)
          simp only [isJSONInt, hc, Bool.true_and]
          simp only [isJSONFracExp, if_true, h2.1, h2.2, hexp, Bool.and_true]
          simp [isDigits, hfd, hfne]

/-- Every finite number is written as a number of the JSON grammar. -/
theorem isJSONNumber_finToString (neg : Bool) (mag : Nat) :
    isJSONNumber (finToString neg mag) = true := by
  unfold finToString
  split
  · decide
  · obtain ⟨c, t, he, hc, h⟩ := magToString_shape mag
    rw [he]
    split
    · unfold isJSONNumber
      simp only [if_true]
      exact h
    · exact isJSONNumber_of_digit_head c t hc h

/-! ## The marks member in the body -/

theorem intercalate_append_singleton (ms : List Str) (x : Str) :
    List.intercalate [','] (ms ++ [x]) = ms.flatMap (fun t => t ++ [',']) ++ x := by
  induction ms with
  | nil => simp [List.intercalate, List.intersperse]
  | cons a rest ih =>
    cases hr : rest ++ [x] with
    | nil => simp at hr
    | cons b l =>
      rw [List.cons_append, hr]
      have h2 : List.intercalate [','] (a :: b :: l) = a ++ [','] ++ List.intercalate [','] (b :: l) :=
        join_cons_cons a b l [',']
      rw [h2, ← hr, ih]
      simp

/-- The body `JSON.stringify` writes for an object whose last property is
kept: the members before it, each followed by a comma, then the last member
and the closing brace. -/
theorem JSON_stringify_last (l : JSObject) (k : Str) (v : JSValue) (t : Str)
    (ht : (serializeJSONProperty v).text = some t) :
    JSON_stringify (l ++ [(k, v)])
      = Char.ofNat 123 :: ((l.filterMap serializeMember).flatMap (fun m => m ++ [','])
          ++ quoteJSONString k ++ ':' :: t ++ [Char.ofNat 125]) := by
  have hm : serializeMember (k, v) = some (quoteJSONString k ++ ':' :: t) := by
    unfold serializeMember
    rw [ht]
    rfl
  unfold JSON_stringify
  rw [List.filterMap_append]
  simp only [List.filterMap_cons, hm, List.filterMap_nil]
  rw [intercalate_append_singleton]
  simp

/-- Either payload ends with the marks property, which holds the parsed
text. -/
theorem payload_ends_with_marks (d : Document) (row : Option Element) (p : JSObject)
    (text : Str)
    (h : (addStudentPayload d = some p
          ∧ (d.getElementById "marks".toList).bind (fun e => e.value) = some text)
        ∨ (updateStudentPayload row = some p
          ∧ row.bind (fun r => r.cells.get? 2) = some text)) :
    p = p.dropLast ++ [("marks".toList, JSValue.num (parseInt text))] := by
  rcases h with ⟨hp, ht⟩ | ⟨hp, ht⟩
  · obtain ⟨en, es, em, _, _, hm, rfl⟩ := addStudentPayload_some d p hp
    rw [hm] at ht
    simp only [Option.some_bind] at ht
    rw [ht]
    rfl
  · obtain ⟨r, name, subject, marks, more, rfl, hc, rfl⟩ := updateStudentPayload_some row p hp
    simp only [Option.some_bind, hc, List.get?_cons_succ, List.get?_cons_zero,
      Option.some.injEq] at ht
    rw [ht]
    rfl

/-- The body of either request, for a payload that ends with the marks
property, in terms of the text `m` written for the member. -/
theorem body_of_payload (d : Document) (row : Option Element) (p : JSObject) (text m : Str)
    (h : (addStudentPayload d = some p
          ∧ (d.getElementById "marks".toList).bind (fun e => e.value) = some text)
        ∨ (updateStudentPayload row = some p
          ∧ row.bind (fun r => r.cells.get? 2) = some text))
    (hm : (serializeJSONProperty (JSValue.num (parseInt text))).text = some m) :
    ∃ r, (addStudentRequest d = some r ∨ updateStudentRequest d row = some r)
      ∧ r.body = Char.ofNat 123 ::
          ((p.dropLast.filterMap serializeMember).flatMap (fun t => t ++ [','])
            ++ "\"marks\":".toList ++ m ++ [Char.ofNat 125]) := by
  have hb : JSON_stringify p = Char.ofNat 123 ::
      ((p.dropLast.filterMap serializeMember).flatMap (fun t => t ++ [','])
        ++ "\"marks\":".toList ++ m ++ [Char.ofNat 125]) := by
    have hq : quoteJSONString "marks".toList = "\"marks\"".toList := by decide
    have := JSON_stringify_last p.dropLast "marks".toList _ m hm
    rw [← payload_ends_with_marks d row p text h, hq] at this
    rw [this]
    simp
  rcases h with ⟨hp, _⟩ | ⟨hp, _⟩
  · exact ⟨_, Or.inl (addStudentRequest_eq d p hp), hb⟩
  · exact ⟨_, Or.inr (updateStudentRequest_eq d row p hp), hb⟩

theorem null_not_number : isJSONNumber "null".toList = false := by decide

/-- C7 (as amended): the body sent to `/add/` and the body sent to `/update/`
end with a marks member, which is never absent, and the text of its value is
either `null` or a number of the JSON grammar.  It is `null` exactly when
`parseInt` of the text of the marks field (the third cell) is not a finite
number, and so whenever that text holds no decimal digit at all; it is the
decimal numeral of the integer whenever the text is an optional minus sign
followed by decimal digits and denotes an integer below `2^53` in
magnitude. -/
theorem marks_member_number_or_null (d : Document) (row : Option Element) (p : JSObject)
    (text : Str)
    (h : (addStudentPayload d = some p
          ∧ (d.getElementById "marks".toList).bind (fun e => e.value) = some text)
        ∨ (updateStudentPayload row = some p
          ∧ row.bind (fun r => r.cells.get? 2) = some text)) :
    ∃ r m, (addStudentRequest d = some r ∨ updateStudentRequest d row = some r)
      ∧ r.body = Char.ofNat 123 ::
          ((p.dropLast.filterMap serializeMember).flatMap (fun t => t ++ [','])
            ++ "\"marks\":".toList ++ m ++ [Char.ofNat 125])
      ∧ (m = "null".toList ∨ isJSONNumber m = true)
      ∧ (m = "null".toList ↔ ¬ ∃ neg mag, parseInt text = JSNumber.fin neg mag)
      ∧ (∀ n : Int, denotedInt text = some n → n.natAbs < 2 ^ 53 →
          m = if n < 0 then '-' :: decimal n.natAbs else decimal n.natAbs)
      ∧ ((∀ c ∈ text, isDecimalDigit c = false) → m = "null".toList) := by
  cases hn : parseInt text with
  | nan =>
    obtain ⟨r, hr, hb⟩ := body_of_payload d row p text "null".toList h (by rw [hn]; rfl)
    refine ⟨r, _, hr, hb, Or.inl rfl, ?_, ?_, fun _ => rfl⟩
    · simp
    · intro n hd hlt
      obtain ⟨neg, hp, _⟩ := parseInt_of_denotedInt text n hd hlt
      rw [hn] at hp
      exact absurd hp (by simp)
  | inf neg =>
    obtain ⟨r, hr, hb⟩ := body_of_payload d row p text "null".toList h (by rw [hn]; rfl)
    refine ⟨r, _, hr, hb, Or.inl rfl, ?_, ?_, fun _ => rfl⟩
    · simp
    · intro n hd hlt
      obtain ⟨neg1, hp, _⟩ := parseInt_of_denotedInt text n hd hlt
      rw [hn] at hp
      exact absurd hp (by simp)
  | fin neg mag =>
    obtain ⟨r, hr, hb⟩ := body_of_payload d row p text (finToString neg mag) h
      (by rw [hn]; rfl)
    have hnum := isJSONNumber_finToString neg mag
    have hne : finToString neg mag ≠ "null".toList := by
      intro he
      rw [he, null_not_number] at hnum
      exact absurd hnum (by simp)
    refine ⟨r, _, hr, hb, Or.inr hnum, ?_, ?_, ?_⟩
    · constructor
      · intro he
        exact absurd he hne
      · intro hx
        exact absurd ⟨neg, mag, rfl⟩ hx
    · intro n hd hlt
      have := member_of_denotedInt text n hd hlt
      rw [hn] at this
      simp only [serializeJSONProperty, JSONMember.number.injEq] at this
      exact this
    · intro hnone
      rw [parseInt_of_no_digit text hnone] at hn
      exact absurd hn (by simp)

/-- Witness for C7: the first row of the sample table, whose third cell holds
`91`; the body ends with the member `"marks":91`. -/
theorem marks_member_number_or_null_witness :
    ∃ p, updateStudentPayload (some sampleRow) = some p ∧
      ∃ r m, (addStudentRequest sampleDocument = some r
            ∨ updateStudentRequest sampleDocument (some sampleRow) = some r)
        ∧ r.body = Char.ofNat 123 ::
            ((p.dropLast.filterMap serializeMember).flatMap (fun t => t ++ [','])
              ++ "\"marks\":".toList ++ m ++ [Char.ofNat 125])
        ∧ (m = "null".toList ∨ isJSONNumber m = true)
        ∧ m = "91".toList := by
  obtain ⟨r, m, hr, hb, hm, _, hn, _⟩ :=
    marks_member_number_or_null sampleDocument (some sampleRow) _ "91".toList
      (Or.inr ⟨rfl, rfl⟩)
  exact ⟨_, rfl, r, m, hr, hb, hm, (hn 91 (by decide) (by decide)).trans (by decide)⟩

/-- C7 (as stated) fails: with `abc` in the marks field the body sent to
`/add/` has `null` for marks, and with an empty third cell so has the body
sent to `/update/`. -/
theorem marks_member_null_for_text_without_digits :
    (addStudentRequest
        { cookie := "csrftoken=Xy12".toList
          elements := [textInput 1 "name".toList "Eve".toList,
                       textInput 2 "subject".toList "Physics".toList,
                       textInput 3 "marks".toList "abc".toList] }).map (fun r => r.body)
      = some "\x7b\"name\":\"Eve\",\"subject\":\"Physics\",\"marks\":null\x7d".toList
    ∧ (updateStudentRequest sampleDocument
        (some (tableRow 9 "12".toList ["Dan".toList, "Art".toList, []]))).map (fun r => r.body)
      = some "\x7b\"id\":\"12\",\"name\":\"Dan\",\"subject\":\"Art\",\"marks\":null\x7d".toList
    ∧ serializeJSONProperty (JSValue.num (parseInt "abc".toList)) = JSONMember.null
    ∧ isJSONNumber "null".toList = false := by
  decide

/-! ## `updateStudent` -/

/-- The callback of `updateStudent` leaves the document as it is. -/
theorem updateStudentSettled_document (s : Settled) (w : World) :
    (updateStudentSettled s w).document = w.document := by
  unfold updateStudentSettled
  split
  · split <;> rfl
  · rfl

/-- C9 (as amended): for every table row with data-id `d` and at least three
cells, `updateStudent` posts to `/update/` the JSON serialization of
`id: d, name: text of cell 0, subject: text of cell 1, marks: parseInt of the
text of cell 2`, where marks is the integer the text denotes when it denotes
one below `2^53` in magnitude and `NaN`, written `null`, when the text holds
no decimal digit.  For every response whose status can be read and converted
to a string the handler shows one alert with that status: the status itself
when it is a string, `undefined` when it is missing, its conversion to a
string when it is another value.  For every outcome of the request the row
and the rest of the document are left unchanged. -/
theorem updateStudent_payload_and_alert (row : Element) (d name subject marks : Str)
    (more : List Str) (s : Settled) (w : World)
    (hid : row.dataId = some d) (hcells : row.cells = name :: subject :: marks :: more) :
    ∃ r w1, updateStudentRequest w.document (some row) = some r
      ∧ r.url = "/update/".toList ∧ r.method = "POST".toList
      ∧ r.body = JSON_stringify
          [("id".toList, JSValue.str d), ("name".toList, JSValue.str name),
           ("subject".toList, JSValue.str subject),
           ("marks".toList, JSValue.num (parseInt marks))]
      ∧ (∀ n : Int, denotedInt marks = some n → n.natAbs < 2 ^ 53 →
          r.body = JSON_stringify
            [("id".toList, JSValue.str d), ("name".toList, JSValue.str name),
             ("subject".toList, JSValue.str subject),
             ("marks".toList, JSValue.num (JSNumber.ofInt n))])
      ∧ ((∀ c ∈ marks, isDecimalDigit c = false) →
          r.body = JSON_stringify
            [("id".toList, JSValue.str d), ("name".toList, JSValue.str name),
             ("subject".toList, JSValue.str subject),
             ("marks".toList, JSValue.num JSNumber.nan)])
      ∧ updateStudent (some row) s w = some w1
      ∧ w1.document = w.document
      ∧ (∀ status message, s = Settled.parsed (Data.value (Datum.str status) message) →
          w1.trace = w.trace ++ [Effect.fetch r, Effect.alert status])
      ∧ (∀ message, s = Settled.parsed (Data.value Datum.undefined message) →
          w1.trace = w.trace ++ [Effect.fetch r, Effect.alert "undefined".toList])
      ∧ (∀ shown message, s = Settled.parsed (Data.value (Datum.other shown) message) →
          w1.trace = w.trace ++ [Effect.fetch r, Effect.alert shown]) := by
  have hr := updateStudentRequest_eq w.document (some row) _
    (updateStudentPayload_eq row name subject marks more hcells)
  rw [hid] at hr
  have hu : updateStudent (some row) s w
      = some (updateStudentSettled s (w.emit (Effect.fetch
          { url := "/update/".toList, method := "POST".toList,
            headers := [("Content-Type".toList, JSValue.str "application/json".toList),
                        ("X-CSRFToken".toList, getCSRFToken w.document.cookie)],
            body := JSON_stringify
              [("id".toList, ofOption (some d)), ("name".toList, JSValue.str name),
               ("subject".toList, JSValue.str subject),
               ("marks".toList, JSValue.num (parseInt marks))] }))) := by
    unfold updateStudent
    rw [hr]
    rfl
  refine ⟨_, _, hr, rfl, rfl, rfl, ?_, ?_, hu, ?_, ?_, ?_, ?_⟩
  · intro n hn hb
    have := JSON_stringify_congr_last
      [("id".toList, JSValue.str d), ("name".toList, JSValue.str name),
       ("subject".toList, JSValue.str subject)]
      "marks".toList _ _ (serialize_parseInt_of_denotedInt marks n hn hb)
    simpa only [List.cons_append, List.nil_append] using this
  · intro hnone
    simp only [ofOption]
    rw [parseInt_of_no_digit marks hnone]
  · rw [updateStudentSettled_document]
    rfl
  · intro status message hs
    subst hs
    simp [updateStudentSettled, Datum.toStr, World.emit]
  · intro message hs
    subst hs
    simp [updateStudentSettled, Datum.toStr, World.emit]
  · intro shown message hs
    subst hs
    simp [updateStudentSettled, Datum.toStr, World.emit]

/-- Witness for C9: the first row of the sample table, answered with the
status `updated`, which the one alert shows. -/
theorem updateStudent_payload_and_alert_witness :
    ∃ r w1, updateStudentRequest sampleWorld.document (some sampleRow) = some r
      ∧ r.url = "/update/".toList
      ∧ r.body = JSON_stringify
          [("id".toList, JSValue.str "7".toList), ("name".toList, JSValue.str "Ada".toList),
           ("subject".toList, JSValue.str "Math".toList),
           ("marks".toList, JSValue.num (JSNumber.ofInt 91))]
      ∧ updateStudent (some sampleRow)
          (Settled.parsed (Data.value (Datum.str "updated".toList) Datum.undefined)) sampleWorld
          = some w1
      ∧ w1.document = sampleWorld.document
      ∧ w1.trace = [Effect.fetch r, Effect.alert "updated".toList] := by
  obtain ⟨r, w1, h1, h2, _, _, h5, _, h7, h8, h9, _, _⟩ :=
    updateStudent_payload_and_alert sampleRow "7".toList "Ada".toList "Math".toList
      "91".toList []
      (Settled.parsed (Data.value (Datum.str "updated".toList) Datum.undefined)) sampleWorld
      rfl rfl
  exact ⟨r, w1, h1, h2, h5 91 (by decide) (by decide), h7, h8, h9 _ _ rfl⟩

/-- C9 (as stated) fails: for the second row of the sample table, whose third
cell reads `n/a`, no integer is parsed and the body posted to `/update/` has
`null` for marks; and answered with the data `null`, or with a status whose
conversion to a string throws, `updateStudent` issues its request and shows
no alert. -/
theorem updateStudent_marks_null_for_non_numeric_cell :
    (updateStudentRequest sampleDocument
        (some (tableRow 6 "8".toList ["Bob".toList, "Art".toList, "n/a".toList]))).map
          (fun r => r.body)
      = some "\x7b\"id\":\"8\",\"name\":\"Bob\",\"subject\":\"Art\",\"marks\":null\x7d".toList
    ∧ parseInt "n/a".toList = JSNumber.nan
    ∧ denotedInt "n/a".toList = none
    ∧ (updateStudent (some sampleRow)
        (Settled.parsed (Data.null
          ⟨"TypeError: data is null".toList⟩))
        sampleWorld).map (fun w => w.trace.drop 1) = some []
    ∧ (updateStudent (some sampleRow)
        (Settled.parsed (Data.value
          (Datum.unconvertible ⟨"TypeError: Cannot convert object to primitive value".toList⟩)
          Datum.undefined))
        sampleWorld).map (fun w => w.trace.drop 1) = some [] := by
  decide

/-! ## `showAddModal` -/

theorem updateFirst_append (p : Element → Bool) (f : Element → Element)
    (before : List Element) (x : Element) (after : List Element)
    (hb : ∀ e ∈ before, p e = false) (hx : p x = true) :
    updateFirst p f (before ++ x :: after) = some (before ++ f x :: after) := by
  induction before with
  | nil => simp [updateFirst, hx]
  | cons a rest ih =>
    have ha : p a = false := hb a (List.mem_cons_self _ _)
    simp [updateFirst, ha, ih (fun e he => hb e (List.mem_cons_of_mem _ he))]

theorem find?_append_of_all_false (p : Element → Bool) (before : List Element) (x : Element)
    (after : List Element) (hb : ∀ e ∈ before, p e = false) (hx : p x = true) :
    (before ++ x :: after).find? p = some x := by
  induction before with
  | nil => simp [hx]
  | cons a rest ih =>
    have ha : p a = false := hb a (List.mem_cons_self _ _)
    simp [ha, ih (fun e he => hb e (List.mem_cons_of_mem _ he))]

theorem split_of_find? (p : Element → Bool) (l : List Element) (m : Element)
    (h : l.find? p = some m) :
    ∃ before after, l = before ++ m :: after ∧ (∀ e ∈ before, p e = false) ∧ p m = true := by
  induction l with
  | nil => simp at h
  | cons a rest ih =>
    by_cases ha : p a = true
    · simp only [List.find?_cons, ha, Option.some.injEq] at h
      subst h
      exact ⟨[], rest, rfl, by simp, ha⟩
    · have ha2 : p a = false := by simpa using ha
      simp only [List.find?_cons, ha2] at h
      obtain ⟨before, after, hl, hb, hm⟩ := ih h
      refine ⟨a :: before, after, by rw [hl]; rfl, ?_, hm⟩
      intro e he
      rcases List.mem_cons.mp he with rfl | he
      · exact ha2
      · exact hb e he

/-- C10: in every document that holds an element with id `modal`,
`showAddModal` sets the display style of that element, the first with that
id, to `block` and changes nothing else: the other elements, the cookie and
the effects stay as they were.  Calling it a second time changes nothing
more, and a modal that is already shown stays shown and the state stays as it
is. -/
theorem showAddModal_idempotent (w : World) (m : Element)
    (hm : w.document.getElementById "modal".toList = some m) :
    ∃ before after w1, w.document.elements = before ++ m :: after
      ∧ w1 = { document := { cookie := w.document.cookie,
                             elements := before ++ { m with display := "block".toList } :: after },
               trace := w.trace }
      ∧ showAddModal w = some w1
      ∧ showAddModal w1 = some w1
      ∧ w1.document.getElementById "modal".toList = some { m with display := "block".toList }
      ∧ (m.display = "block".toList → w1 = w) := by
  obtain ⟨before, after, hl, hb, hp⟩ := split_of_find? _ _ m hm
  have hp2 : (fun e : Element => decide (e.id = "modal".toList))
      { m with display := "block".toList } = true := hp
  refine ⟨before, after, _, hl, rfl, ?_, ?_, ?_, ?_⟩
  · unfold showAddModal
    rw [hl, updateFirst_append _ _ before m after hb hp]
    rfl
  · unfold showAddModal
    simp only
    rw [updateFirst_append _ _ before _ after hb hp2]
    rfl
  · unfold Document.getElementById
    simp only
    exact find?_append_of_all_false _ before _ after hb hp2
  · intro hd
    have hmm : ({ m with display := "block".toList } : Element) = m := by
      rw [← hd]
    rw [hmm, ← hl]

/-- Witness for C10: the hidden dialog of the sample page is shown. -/
theorem showAddModal_idempotent_witness :
    ∃ before after w1, sampleWorld.document.elements = before ++ sampleModal :: after
      ∧ w1 = { document := { cookie := sampleWorld.document.cookie,
                             elements :=
                               before ++ { sampleModal with display := "block".toList } :: after },
               trace := sampleWorld.trace }
      ∧ showAddModal sampleWorld = some w1
      ∧ showAddModal w1 = some w1
      ∧ w1.document.getElementById "modal".toList
          = some { sampleModal with display := "block".toList }
      ∧ (sampleModal.display = "block".toList → w1 = sampleWorld) :=
  showAddModal_idempotent sampleWorld sampleModal (by decide)

/-! ## The CSRF header -/

theorem addStudentRequest_headers (d : Document) (r : Request)
    (h : addStudentRequest d = some r) : r.headers = headersFor d := by
  cases hp : addStudentPayload d with
  | none => simp [addStudentRequest, hp] at h
  | some p =>
    rw [addStudentRequest_eq d p hp] at h
    rw [← Option.some.inj h]
    rfl

theorem updateStudentRequest_headers (d : Document) (row : Option Element) (r : Request)
    (h : updateStudentRequest d row = some r) : r.headers = headersFor d := by
  cases hp : updateStudentPayload row with
  | none => simp [updateStudentRequest, hp] at h
  | some p =>
    rw [updateStudentRequest_eq d row p hp] at h
    rw [← Option.some.inj h]
    rfl

theorem deleteStudentRequest_headers (d : Document) (row : Option Element) (r : Request)
    (h : deleteStudentRequest d row = some r) : r.headers = headersFor d := by
  cases row with
  | none => simp [deleteStudentRequest, deleteStudentPayload] at h
  | some e =>
    have : deleteStudentRequest d (some e) = some
        { url := "/delete/".toList, method := "POST".toList, headers := headersFor d,
          body := JSON_stringify [("id".toList, ofOption e.dataId)] } := rfl
    rw [this] at h
    rw [← Option.some.inj h]

/-- The callbacks of `addStudent` perform one effect, which is no request. -/
theorem addStudentSettled_trace (s : Settled) (w : World) :
    ∃ rest, (addStudentSettled s w).trace = w.trace ++ rest ∧ ∀ q, Effect.fetch q ∉ rest := by
  unfold addStudentSettled
  split
  · split
    · exact ⟨[Effect.reload], rfl, by simp⟩
    · split
      · exact ⟨[Effect.alert _], rfl, by simp⟩
      · exact ⟨[Effect.alert _], rfl, by simp⟩
  · exact ⟨[Effect.alert _], rfl, by simp⟩
  · exact ⟨[Effect.alert _], rfl, by simp⟩
  · exact ⟨[Effect.alert _], rfl, by simp⟩

/-- The callback of `updateStudent` performs no request. -/
theorem updateStudentSettled_trace (s : Settled) (w : World) :
    ∃ rest, (updateStudentSettled s w).trace = w.trace ++ rest ∧ ∀ q, Effect.fetch q ∉ rest := by
  unfold updateStudentSettled
  split
  · split
    · exact ⟨[Effect.alert _], rfl, by simp⟩
    · exact ⟨[], by simp, by simp⟩
  · exact ⟨[], by simp, by simp⟩

theorem trace_emit_append (w : World) (e : Effect) (rest : List Effect) :
    (w.emit e).trace ++ rest = w.trace ++ e :: rest := by
  simp [World.emit]

/-- Each handler issues one request, and it carries the headers of
`headersFor`. -/
theorem handler_trace (row : Option Element) (s : Settled) (w w1 : World)
    (h : addStudent s w = some w1 ∨ updateStudent row s w = some w1
      ∨ deleteStudent row s w = some w1) :
    ∃ r rest, w1.trace = w.trace ++ Effect.fetch r :: rest
      ∧ (∀ q, Effect.fetch q ∉ rest) ∧ r.headers = headersFor w.document := by
  rcases h with h | h | h
  · unfold addStudent at h
    cases hr : addStudentRequest w.document with
    | none => rw [hr] at h; exact absurd h (by simp)
    | some r =>
      rw [hr] at h
      simp only [Option.map, Option.some.injEq] at h
      obtain ⟨rest, ht, hq⟩ := addStudentSettled_trace s (w.emit (Effect.fetch r))
      refine ⟨r, rest, ?_, hq, addStudentRequest_headers _ r hr⟩
      rw [← h, ht, trace_emit_append]
  · unfold updateStudent at h
    cases hr : updateStudentRequest w.document row with
    | none => rw [hr] at h; exact absurd h (by simp)
    | some r =>
      rw [hr] at h
      simp only [Option.map, Option.some.injEq] at h
      obtain ⟨rest, ht, hq⟩ := updateStudentSettled_trace s (w.emit (Effect.fetch r))
      refine ⟨r, rest, ?_, hq, updateStudentRequest_headers _ row r hr⟩
      rw [← h, ht, trace_emit_append]
  · cases row with
    | none => exact absurd h (by simp [deleteStudent])
    | some e =>
      rw [deleteStudent_some] at h
      simp only [Option.some.injEq] at h
      refine ⟨{ url := "/delete/".toList, method := "POST".toList,
                headers := headersFor w.document,
                body := JSON_stringify [("id".toList, ofOption e.dataId)] }, [], ?_, by simp, rfl⟩
      rw [← h, deleteStudentSettled_trace]
      rfl

/-- C5 (as amended): each of the requests issued by `addStudent`,
`updateStudent` and `deleteStudent` has an `X-CSRFToken` header whose value
is `getCSRFToken()` evaluated on the cookie string of the document, and so
is the value `v` of the csrftoken cookie whenever `csrftoken=v` is the first
piece of the cookie string that starts with `csrftoken=` and `v` holds
neither `; ` nor `=`.  Each call issues exactly one request. -/
theorem requests_carry_csrf_token (row : Option Element) (s : Settled) (w w1 : World)
    (h : addStudent s w = some w1 ∨ updateStudent row s w = some w1
      ∨ deleteStudent row s w = some w1) :
    ∃ r rest, w1.trace = w.trace ++ Effect.fetch r :: rest
      ∧ (∀ q, Effect.fetch q ∉ rest)
      ∧ r.headers.get "X-CSRFToken".toList = getCSRFToken w.document.cookie
      ∧ (∀ (before after : List Str) (v : Str),
          (∀ p ∈ before,
            occursIn "; ".toList p = false ∧ startsWith p "csrftoken=".toList = false) →
          occursIn "; ".toList v = false → occursIn "=".toList v = false →
          w.document.cookie = join (before ++ ("csrftoken=".toList ++ v) :: after) "; ".toList →
          r.headers.get "X-CSRFToken".toList = JSValue.str v) := by
  obtain ⟨r, rest, ht, hq, hh⟩ := handler_trace row s w w1 h
  have hget : r.headers.get "X-CSRFToken".toList = getCSRFToken w.document.cookie := by
    rw [hh]
    rfl
  refine ⟨r, rest, ht, hq, hget, ?_⟩
  intro before after v hb hs he hc
  rw [hget, hc]
  exact getCSRFToken_of_first_piece before after v hb hs he

/-- Witness for C5: the request of `updateStudent` on the sample page carries
the token `Xy12`. -/
theorem requests_carry_csrf_token_witness :
    ∃ w1, updateStudent (some sampleRow)
        (Settled.parsed (Data.value (Datum.str "updated".toList) Datum.undefined)) sampleWorld
        = some w1
      ∧ ∃ r rest, w1.trace = sampleWorld.trace ++ Effect.fetch r :: rest
        ∧ (∀ q, Effect.fetch q ∉ rest)
        ∧ r.headers.get "X-CSRFToken".toList = getCSRFToken sampleWorld.document.cookie
        ∧ (∀ (before after : List Str) (v : Str),
            (∀ p ∈ before,
              occursIn "; ".toList p = false ∧ startsWith p "csrftoken=".toList = false) →
            occursIn "; ".toList v = false → occursIn "=".toList v = false →
            sampleWorld.document.cookie
              = join (before ++ ("csrftoken=".toList ++ v) :: after) "; ".toList →
            r.headers.get "X-CSRFToken".toList = JSValue.str v) :=
  ⟨_, rfl, requests_carry_csrf_token (some sampleRow) _ sampleWorld _ (Or.inr (Or.inl rfl))⟩

/-- C5 (as stated) fails: when the value of the csrftoken cookie is `p=q` the
header of the request of `deleteStudent` holds `p` only. -/
theorem csrf_header_truncated_at_equals :
    (deleteStudentRequest { cookie := "csrftoken=p=q".toList, elements := [sampleRow] }
        (some sampleRow)).map (fun r => r.headers.get "X-CSRFToken".toList)
      = some (JSValue.str "p".toList)
    ∧ JSValue.str "p".toList ≠ JSValue.str "p=q".toList := by
  decide

/-! ## Failures -/

/-- Without a rejection handler a failed request ends `updateStudent` and
`deleteStudent` silently. -/
theorem settled_of_failure (row : Element) (e : Thrown) (w : World) :
    updateStudentSettled (Settled.fetchFailed e) w = w
      ∧ updateStudentSettled (Settled.jsonFailed e) w = w
      ∧ deleteStudentSettled row (Settled.fetchFailed e) w = w
      ∧ deleteStudentSettled row (Settled.jsonFailed e) w = w
      ∧ addStudentSettled (Settled.fetchFailed e) w
          = w.emit (Effect.alert ("Error occurred: ".toList ++ e.shown))
      ∧ addStudentSettled (Settled.jsonFailed e) w
          = w.emit (Effect.alert ("Error occurred: ".toList ++ e.shown)) :=
  ⟨rfl, rfl, rfl, rfl, rfl, rfl⟩

/-- C6 at a failing input: when `fetch` rejects with `TypeError: Failed to
fetch` on the sample page, `addStudent` shows the alert `Error occurred:
TypeError: Failed to fetch`, while `updateStudent` and `deleteStudent` issue
their request and then show nothing; none of the three changes the
document. -/
theorem failure_alert_only_in_addStudent :
    (addStudent (Settled.fetchFailed ⟨"TypeError: Failed to fetch".toList⟩) sampleWorld).map
        (fun w => (w.trace.drop 1, decide (w.document = sampleDocument)))
      = some ([Effect.alert "Error occurred: TypeError: Failed to fetch".toList], true)
    ∧ (updateStudent (some sampleRow) (Settled.fetchFailed ⟨"TypeError: Failed to fetch".toList⟩)
        sampleWorld).map (fun w => (w.trace.drop 1, decide (w.document = sampleDocument)))
      = some ([], true)
    ∧ (deleteStudent (some sampleRow) (Settled.fetchFailed ⟨"TypeError: Failed to fetch".toList⟩)
        sampleWorld).map (fun w => (w.trace.drop 1, decide (w.document = sampleDocument)))
      = some ([], true) := by
  decide

end Script
